import Mathlib

/-!
# jnlib/w32-pth.c: the Pth emulation for W32

A shallow embedding of `src/jnlib/w32-pth.c`.  Pointers and native handles are
natural numbers, `0` being `NULL`.  The event nodes, the mutex objects and the attribute
bags live in heaps indexed by address; dereferencing `NULL` or an address that holds no
object stops the run with `Stop.fault`.  Loops that walk a chain take a step
budget and stop with `Stop.fuel` when it is used up.  Every call into the
operating system or the C library is appended to `World.trace`; the answers of the operating
system that the program cannot determine are read from `World.replies`.
The `fprintf (stderr, ...)` lines are left out, and the library is taken to be
initialised already, so that `implicit_init ()` does nothing.
-/

namespace W32Pth

/-- An address; `0` is `NULL`. -/
abbrev Ptr := Nat

/-- A native handle; `0` is `NULL`. -/
abbrev HANDLE := Nat

/-- Why a run produced no result: a bad dereference, or the step budget ran out. -/
inductive Stop
  | fault
  | fuel
  deriving DecidableEq, Repr

/-- Modelled from the spec: the values `u_type` takes.  The numbers behind
`PTH_EVENT_SIGS`, `PTH_EVENT_FD`, `PTH_EVENT_TIME` and `PTH_EVENT_MUTEX` are
declared in `w32-pth.h`, which is not among the sources; they are the case labels
of one `switch`, hence pairwise distinct and distinct from `0`.  `zero` is the
tag `0` that `calloc` leaves (the spec's Generic kind). -/
inductive pth_event_type
  | zero
  | PTH_EVENT_SIGS
  | PTH_EVENT_FD
  | PTH_EVENT_TIME
  | PTH_EVENT_MUTEX
  deriving DecidableEq, Repr

/-- Modelled from the spec: the bits of an event specification and of the
`flags` word of an event, declared in `w32-pth.h`.  A word is kept as the list
of the constants or-ed into it: `spec & C` is membership, `0` is the empty list. -/
inductive pth_spec_bit
  | PTH_EVENT_SIGS
  | PTH_EVENT_FD
  | PTH_EVENT_TIME
  | PTH_EVENT_MUTEX
  | PTH_UNTIL_FD_READABLE
  | PTH_MODE_STATIC
  deriving DecidableEq, Repr

/-- The C `struct timeval`. -/
structure timeval where
  tv_sec : Int := 0
  tv_usec : Int := 0
  deriving DecidableEq, Repr

/-- The union `u` of `struct pth_event_s`.  The members are kept side by side;
the code reads only the member that `u_type` selects. -/
structure pth_event_u where
  sig : Ptr := 0
  fd : Int := 0
  tv : timeval := {}
  mx : Ptr := 0
  deriving DecidableEq, Repr

/-- The C `struct pth_event_s`; the defaults are the zeroes of `calloc`. -/
structure pth_event_s where
  next : Ptr := 0
  prev : Ptr := 0
  hd : HANDLE := 0
  u : pth_event_u := {}
  val : Ptr := 0
  u_type : pth_event_type := pth_event_type.zero
  flags : List pth_spec_bit := []
  deriving DecidableEq, Repr

/-- Modelled from the spec: `pth_mutex_t` is declared in `w32-pth.h`; these are
the two members the source uses, the native lock handle and the state word. -/
structure pth_mutex_t where
  mx : HANDLE := 0
  mx_state : Nat := 0
  deriving DecidableEq, Repr

/-- Modelled from the spec: the attribute fields `PTH_ATTR_JOINABLE`,
`PTH_ATTR_STACK_SIZE` and `PTH_ATTR_NAME` of `w32-pth.h`; `other` is any other
value of the `int field` argument. -/
inductive pth_attr_field
  | PTH_ATTR_JOINABLE
  | PTH_ATTR_STACK_SIZE
  | PTH_ATTR_NAME
  | other (n : Int)
  deriving DecidableEq, Repr

/-- The C `struct pth_attr_s`.  The `flags` word is kept as the list of the
constants or-ed into it. -/
structure pth_attr_s where
  flags : List pth_attr_field := []
  stack_size : Int := 0
  name : Option String := none
  deriving DecidableEq, Repr

/-- Modelled from the spec: `struct sigset_s` is declared in `w32-pth.h`; these
are the two members the commented-out code of the source reads and writes, the
array of signal numbers and the count of its used entries. -/
structure sigset_s where
  sigs : List Int := []
  idx : Nat := 0
  deriving DecidableEq, Repr

/-- The C `struct _pth_priv_hd_s`; the function pointer `thread` is kept as the
address of the code it points to. -/
structure _pth_priv_hd_s where
  thread : Nat := 0
  arg : Ptr := 0
  deriving DecidableEq, Repr

/-- The thread bodies handed to `CreateThread`. -/
inductive thread_func
  | helper_thread
  | wait_fd_thread
  | wait_timer_thread
  deriving DecidableEq, Repr

/-- One call into the operating system or the C library, with its arguments
and, where the program uses it, its result. -/
inductive Call
  | EnterCriticalSection
  | LeaveCriticalSection
  | CloseHandle (h : HANDLE)
  | free (p : Ptr)
  | calloc (ret : Ptr)
  | CreateEvent (manual_reset : Bool) (ret : HANDLE)
  | CreateThread (stack_size : Int) (func : thread_func) (arg : Ptr) (ret : HANDLE)
  | WaitForSingleObject (h : HANDLE) (ret : Nat)
  | WaitForMultipleObjects (handles : List HANDLE) (ret : Nat)
  | CreateMutex (ret : HANDLE)
  | ReleaseMutex (h : HANDLE)
  | SetConsoleCtrlHandler
  | strdup (ret : Bool)
  | free_string
  | ioctlsocket (fd : Int) (val : Nat) (ret : Int)
  | accept (fd : Int) (ret : Int)
  | recv (fd : Int) (size : Nat) (ret : Int)
  | send (fd : Int) (size : Nat) (ret : Int)
  | ReadFile (fd : Int) (size : Nat) (ret : Int) (nread : Nat)
  | WriteFile (fd : Int) (size : Nat) (ret : Int) (nwrite : Nat)
  | SetEvent (h : HANDLE)
  | thread (func : Nat) (arg : Ptr)
  | ExitThread (code : Int)
  deriving DecidableEq, Repr

/-- The state the library runs in. -/
structure World where
  /-- The event nodes that are allocated, by address. -/
  events : Ptr → Option pth_event_s := fun _ => none
  /-- The mutex objects that are allocated, by address. -/
  mutexes : Ptr → Option pth_mutex_t := fun _ => none
  /-- The attribute bags that are allocated, by address. -/
  attrs : Ptr → Option pth_attr_s := fun _ => none
  /-- The `int` cells that event output fields point to, by address. -/
  ints : Ptr → Option Int := fun _ => none
  /-- The signal sets that Signal events point to, by address. -/
  sigsets : Ptr → Option sigset_s := fun _ => none
  /-- The thread contexts `do_pth_spawn` allocates, by address. -/
  privs : Ptr → Option _pth_priv_hd_s := fun _ => none
  /-- The native event objects that are in the signalled state. -/
  signaled : HANDLE → Bool := fun _ => false
  /-- The native event objects created with `bManualReset = TRUE`. -/
  manual_reset : HANDLE → Bool := fun _ => false
  /-- The sockets that are in non-blocking mode (`FIONBIO` set). -/
  nonblocking : Int → Bool := fun _ => false
  /-- The value `WSAGetLastError ()` returns. -/
  last_error : Int := 0
  /-- The static `pth_signo`. -/
  pth_signo : Int := 0
  /-- The static `pth_signo_ev`. -/
  pth_signo_ev : HANDLE := 0
  /-- The answers the operating system gives to the coming calls, in order. -/
  replies : List Int := []
  /-- The calls made so far, oldest first. -/
  trace : List Call := []

/-- The outcome of a run: a value and the state reached, or the reason for none. -/
abbrev Run (α : Type) := Except Stop (α × World)

/-- Read the event node at `p`; `NULL` holds none. -/
def World.ev (w : World) (p : Ptr) : Option pth_event_s :=
  if p = 0 then none else w.events p

/-- Read the mutex object at `p`; `NULL` holds none. -/
def World.mutex (w : World) (p : Ptr) : Option pth_mutex_t :=
  if p = 0 then none else w.mutexes p

/-- Write the event node at `p`. -/
def World.setEv (w : World) (p : Ptr) (e : pth_event_s) : World :=
  { w with events := Function.update w.events p (some e) }

/-- Append a call to the trace. -/
def World.log (w : World) (c : Call) : World :=
  { w with trace := w.trace ++ [c] }

/-- Take the next answer of the operating system; `0` when none is left. -/
def World.reply (w : World) : Int × World :=
  (w.replies.headD 0, { w with replies := w.replies.tail })

/-- Read the attribute bag at `p`; `NULL` holds none. -/
def World.attr (w : World) (p : Ptr) : Option pth_attr_s :=
  if p = 0 then none else w.attrs p

/-- Write the mutex object at `p`. -/
def World.setMutex (w : World) (p : Ptr) (m : pth_mutex_t) : World :=
  { w with mutexes := Function.update w.mutexes p (some m) }

/-- Write the attribute bag at `p`. -/
def World.setAttr (w : World) (p : Ptr) (a : pth_attr_s) : World :=
  { w with attrs := Function.update w.attrs p (some a) }

/-- The C `free (p)` of an event node: the cell is gone and the call is logged. -/
def World.freeEv (w : World) (p : Ptr) : World :=
  { w with events := Function.update w.events p none, trace := w.trace ++ [Call.free p] }

/-- The C `free (p)` of a mutex object. -/
def World.freeMutex (w : World) (p : Ptr) : World :=
  { w with mutexes := Function.update w.mutexes p none, trace := w.trace ++ [Call.free p] }

/-- The C `free (p)` of an attribute bag. -/
def World.freeAttr (w : World) (p : Ptr) : World :=
  { w with attrs := Function.update w.attrs p none, trace := w.trace ++ [Call.free p] }

/-- The loop `for (n=root; n->next; n = n->next) ;` of `pth_event_add`: the
node the walk stops at. -/
def pth_event_add_walk : Nat → World → Ptr → Except Stop Ptr
  | 0, _, _ => Except.error Stop.fuel
  | fuel + 1, w, n =>
    match w.ev n with
    | none => Except.error Stop.fault
    | some e => if e.next ≠ 0 then pth_event_add_walk fuel w e.next else Except.ok n

/-- The C `pth_event_add (root, node)`. -/
def pth_event_add (fuel : Nat) (w : World) (root node : Ptr) : Except Stop World :=
  match pth_event_add_walk fuel w root with
  | Except.error s => Except.error s
  | Except.ok n =>
    match w.ev n with
    | none => Except.error Stop.fault
    | some e => Except.ok (w.setEv n { e with next := node })

/-- The loop `while ((evn = va_arg(ap, pth_event_t)) != NULL) pth_event_add (evf, evn);`
over the variable arguments; the list holds the arguments in order and the
loop ends at the first `NULL` (the end of the list stands for the closing `NULL`). -/
def pth_event_concat_args (fuel : Nat) : World → Ptr → List Ptr → Except Stop World
  | w, _, [] => Except.ok w
  | w, evf, evn :: rest =>
    if evn = 0 then Except.ok w
    else
      match pth_event_add fuel w evf evn with
      | Except.error s => Except.error s
      | Except.ok w1 => pth_event_concat_args fuel w1 evf rest

/-- The C `pth_event_concat (evf, ...)`. -/
def pth_event_concat (fuel : Nat) (w : World) (evf : Ptr) (args : List Ptr) : Run Ptr :=
  if evf = 0 then Except.ok (0, w)
  else
    match pth_event_concat_args fuel w evf args with
    | Except.error s => Except.error s
    | Except.ok w1 => Except.ok (evf, w1)

/-- The chain `l` of distinct live nodes starts at `p`, follows the `next`
links and ends in `NULL`. -/
def IsChain (w : World) : Ptr → List Ptr → Prop
  | p, [] => p = 0
  | p, q :: l => p = q ∧ p ≠ 0 ∧
    match w.events p with
    | some e => IsChain w e.next l
    | none => False

/-- The Windows constant `WAIT_OBJECT_0`. -/
def WAIT_OBJECT_0 : Nat := 0

/-- The Windows constant `WAIT_TIMEOUT`. -/
def WAIT_TIMEOUT : Nat := 258

/-- The Windows constant `MAXIMUM_WAIT_OBJECTS`. -/
def MAXIMUM_WAIT_OBJECTS : Nat := 64

/-- The Winsock constant `SOCKET_ERROR`. -/
def SOCKET_ERROR : Int := -1

/-- The Winsock constant `WSAEWOULDBLOCK`. -/
def WSAEWOULDBLOCK : Int := 10035

/-- The Winsock constant `WSAEINPROGRESS`. -/
def WSAEINPROGRESS : Int := 10036

/-- The Winsock constant `WSAENOTSOCK`. -/
def WSAENOTSOCK : Int := 10038

/-- The C `enter_pth`: it leaves the critical section `pth_shd`. -/
def enter_pth (w : World) : World :=
  w.log Call.LeaveCriticalSection

/-- The C `leave_pth`: it enters the critical section `pth_shd`. -/
def leave_pth (w : World) : World :=
  w.log Call.EnterCriticalSection

/-- The native `CloseHandle (h)`. -/
def CloseHandle (w : World) (h : HANDLE) : World :=
  w.log (Call.CloseHandle h)

/-- The native `WaitForSingleObject (h, 0)` on an event object: a signalled
object satisfies the wait, and an auto-reset object is reset by it. -/
def WaitForSingleObject (w : World) (h : HANDLE) : Nat × World :=
  if w.signaled h then
    (WAIT_OBJECT_0,
      { w with
        signaled := if w.manual_reset h then w.signaled else Function.update w.signaled h false,
        trace := w.trace ++ [Call.WaitForSingleObject h WAIT_OBJECT_0] })
  else
    (WAIT_TIMEOUT, w.log (Call.WaitForSingleObject h WAIT_TIMEOUT))

/-- The C `sigpresent (ss, signo)`: the search is commented out. -/
def sigpresent (_ss : Ptr) (_signo : Int) : Int :=
  0

/-- The C `do_pth_event_occurred (ev)`. -/
def do_pth_event_occurred (w : World) (ev : Ptr) : Run Int :=
  if ev = 0 then Except.ok (0, w)
  else
    match w.ev ev with
    | none => Except.error Stop.fault
    | some e =>
      match e.u_type with
      | pth_event_type.zero =>
        let r := WaitForSingleObject w e.hd
        if r.1 = WAIT_OBJECT_0 then Except.ok (1, r.2) else Except.ok (0, r.2)
      | pth_event_type.PTH_EVENT_SIGS =>
        if sigpresent e.u.sig w.pth_signo ≠ 0 then
          let r := WaitForSingleObject w w.pth_signo_ev
          if r.1 = WAIT_OBJECT_0 then
            if e.val = 0 then Except.error Stop.fault
            else
              match r.2.ints e.val with
              | none => Except.error Stop.fault
              | some _ =>
                Except.ok (1, { r.2 with ints := Function.update r.2.ints e.val (some r.2.pth_signo) })
          else Except.ok (0, r.2)
        else Except.ok (0, w)
      | pth_event_type.PTH_EVENT_FD =>
        let r := WaitForSingleObject w e.hd
        if r.1 = WAIT_OBJECT_0 then Except.ok (1, r.2) else Except.ok (0, r.2)
      | _ => Except.ok (0, w)

/-- The C `pth_event_occurred (ev)`. -/
def pth_event_occurred (w : World) (ev : Ptr) : Run Int :=
  match do_pth_event_occurred (enter_pth w) ev with
  | Except.error s => Except.error s
  | Except.ok (ret, w1) => Except.ok (ret, leave_pth w1)

/-- Modelled from the spec: the status values; `PTH_STATUS_OCCURRED` is declared
in `w32-pth.h`, `zero` is the literal `0` the source returns otherwise. -/
inductive pth_status_t
  | zero
  | PTH_STATUS_OCCURRED
  deriving DecidableEq, Repr

/-- The C `do_pth_event_status (ev)`. -/
def do_pth_event_status (w : World) (ev : Ptr) : Run pth_status_t :=
  if ev = 0 then Except.ok (pth_status_t.zero, w)
  else
    match do_pth_event_occurred w ev with
    | Except.error s => Except.error s
    | Except.ok (ret, w1) =>
      if ret ≠ 0 then Except.ok (pth_status_t.PTH_STATUS_OCCURRED, w1)
      else Except.ok (pth_status_t.zero, w1)

/-- Modelled from the spec: the free modes `PTH_FREE_THIS` and `PTH_FREE_ALL` of
`w32-pth.h`; `other` is any other value of the `int mode` argument. -/
inductive pth_free_mode
  | PTH_FREE_THIS
  | PTH_FREE_ALL
  | other (n : Int)
  deriving DecidableEq, Repr

/-- The loop `while (ev) { n = ev->next; CloseHandle (ev->hd); ev->hd = NULL;
free (ev); ev = n; }` of `do_pth_event_free`. -/
def do_pth_event_free_all : Nat → World → Ptr → Except Stop World
  | 0, w, ev => if ev = 0 then Except.ok w else Except.error Stop.fuel
  | fuel + 1, w, ev =>
    if ev = 0 then Except.ok w
    else
      match w.ev ev with
      | none => Except.error Stop.fault
      | some e =>
        let n := e.next
        let w1 := (CloseHandle w e.hd).setEv ev { e with hd := 0 }
        do_pth_event_free_all fuel (w1.freeEv ev) n

/-- The branch `mode == PTH_FREE_THIS` of `do_pth_event_free`. -/
def do_pth_event_free_this (w : World) (ev : Ptr) : Except Stop World :=
  match w.ev ev with
  | none => Except.error Stop.fault
  | some e =>
    -- ev->prev->next = ev->next;
    match w.ev e.prev with
    | none => Except.error Stop.fault
    | some pe =>
      let w1 := w.setEv e.prev { pe with next := e.next }
      -- ev->next->prev = ev->prev;
      match w1.ev ev with
      | none => Except.error Stop.fault
      | some e1 =>
        match w1.ev e1.next with
        | none => Except.error Stop.fault
        | some ne =>
          let w2 := w1.setEv e1.next { ne with prev := e1.prev }
          -- CloseHandle (ev->hd); ev->hd = NULL; free (ev);
          match w2.ev ev with
          | none => Except.error Stop.fault
          | some e2 =>
            let w3 := (CloseHandle w2 e2.hd).setEv ev { e2 with hd := 0 }
            Except.ok (w3.freeEv ev)

/-- The C `do_pth_event_free (ev, mode)`. -/
def do_pth_event_free (fuel : Nat) (w : World) (ev : Ptr) (mode : pth_free_mode) : Run Int :=
  match mode with
  | pth_free_mode.PTH_FREE_ALL =>
    match do_pth_event_free_all fuel w ev with
    | Except.error s => Except.error s
    | Except.ok w1 => Except.ok (0, w1)
  | pth_free_mode.PTH_FREE_THIS =>
    match do_pth_event_free_this w ev with
    | Except.error s => Except.error s
    | Except.ok w1 => Except.ok (0, w1)
  | pth_free_mode.other _ => Except.ok (0, w)

/-- The C `pth_event_free (ev, mode)`. -/
def pth_event_free (fuel : Nat) (w : World) (ev : Ptr) (mode : pth_free_mode) : Run Int :=
  match do_pth_event_free fuel (enter_pth w) ev mode with
  | Except.error s => Except.error s
  | Except.ok (rc, w1) => Except.ok (rc, leave_pth w1)

/-- The C `pth_event_isolate (ev)`. -/
def pth_event_isolate (w : World) (ev : Ptr) : Run Ptr :=
  let ring : Ptr := 0
  if ev = 0 then Except.ok (0, w)
  else Except.ok (ring, w)

/-- The loop `for (p=ev; p; p = p->next) cnt++;` of `pth_event_count`. -/
def pth_event_count_walk : Nat → World → Ptr → Int → Except Stop Int
  | 0, _, p, cnt => if p = 0 then Except.ok cnt else Except.error Stop.fuel
  | fuel + 1, w, p, cnt =>
    if p = 0 then Except.ok cnt
    else
      match w.ev p with
      | none => Except.error Stop.fault
      | some e => pth_event_count_walk fuel w e.next (cnt + 1)

/-- The C `pth_event_count (ev)`. -/
def pth_event_count (fuel : Nat) (w : World) (ev : Ptr) : Except Stop Int :=
  if ev = 0 then Except.ok 0
  else pth_event_count_walk fuel w ev 0

/-- The C `pth_attr_new ()`: the address `calloc` answers, zeroed when not `NULL`. -/
def pth_attr_new (w : World) : Ptr × World :=
  let r := w.reply
  let hd : Ptr := r.1.toNat
  let w1 := r.2.log (Call.calloc hd)
  if hd = 0 then (0, w1) else (hd, w1.setAttr hd {})

/-- The C `pth_attr_destroy (hd)`. -/
def pth_attr_destroy (w : World) (hd : Ptr) : Run Int :=
  if hd = 0 then Except.ok (-1, w)
  else
    match w.attr hd with
    | none => Except.error Stop.fault
    | some a =>
      let w1 := if a.name.isSome then w.log Call.free_string else w
      Except.ok (0, w1.freeAttr hd)

/-- The C `flags |= c` on a word kept as the list of its constants. -/
def or_flag {α : Type} [DecidableEq α] (flags : List α) (c : α) : List α :=
  if c ∈ flags then flags else flags ++ [c]

/-- The C `pth_attr_set (hd, field, ...)`.  The variable argument is given in
both readings: `val` is what `va_arg (args, int)` yields and `str` what
`va_arg (args, char*)` yields (`none` for `NULL`). -/
def pth_attr_set (w : World) (hd : Ptr) (field : pth_attr_field) (val : Int)
    (str : Option String) : Run Int :=
  match field with
  | pth_attr_field.PTH_ATTR_JOINABLE =>
    if val ≠ 0 then
      match w.attr hd with
      | none => Except.error Stop.fault
      | some a =>
        Except.ok (0, w.setAttr hd { a with flags := or_flag a.flags pth_attr_field.PTH_ATTR_JOINABLE })
    else Except.ok (0, w)
  | pth_attr_field.PTH_ATTR_STACK_SIZE =>
    if val ≠ 0 then
      match w.attr hd with
      | none => Except.error Stop.fault
      | some a =>
        Except.ok (0, w.setAttr hd
          { a with flags := or_flag a.flags pth_attr_field.PTH_ATTR_STACK_SIZE, stack_size := val })
    else Except.ok (0, w)
  | pth_attr_field.PTH_ATTR_NAME =>
    match w.attr hd with
    | none => Except.error Stop.fault
    | some a =>
      -- if (hd->name) free (hd->name);  the member keeps its old value
      let w1 := if a.name.isSome then w.log Call.free_string else w
      match str with
      | none => Except.ok (0, w1)
      | some text =>
        let r := w1.reply
        if r.1 = 0 then
          Except.ok (-1, (r.2.log (Call.strdup false)).setAttr hd { a with name := none })
        else
          Except.ok (0, (r.2.log (Call.strdup true)).setAttr hd
            { a with name := some text, flags := or_flag a.flags pth_attr_field.PTH_ATTR_NAME })
  | pth_attr_field.other _ => Except.ok (-1, w)

/-- The C `spawn_helper_thread (hd, func, arg)`: the handle `CreateThread` answers. -/
def spawn_helper_thread (w : World) (hd : Ptr) (func : thread_func) (arg : Ptr) : Run HANDLE :=
  match w.attr hd with
  | none => Except.error Stop.fault
  | some a =>
    let r := w.reply
    let th : HANDLE := r.1.toNat
    Except.ok (th, r.2.log (Call.CreateThread a.stack_size func arg th))

/-- The C `free_helper_threads (waitbuf, hdidx, n)`. -/
def free_helper_threads (w : World) (waitbuf : List HANDLE) (hdidx : List Nat) (n : Nat) : World :=
  (hdidx.take n).foldl (fun w1 idx => CloseHandle w1 (waitbuf.getD idx 0)) w

/-- The native `WaitForMultipleObjects (pos, waitbuf, FALSE, INFINITE)`: the
value it returns is the next answer of the operating system.  What other
threads do to the event objects while the call blocks is not represented. -/
def WaitForMultipleObjects (w : World) (waitbuf : List HANDLE) : Nat × World :=
  let r := w.reply
  let n : Nat := r.1.toNat
  (n, r.2.log (Call.WaitForMultipleObjects waitbuf n))

/-- The loop `for (tmp = ev; tmp; tmp = tmp->next)` of `do_pth_wait`.  The
arrays `waitbuf` and `hdidx` are the lists of the entries written so far, so
`pos` is the length of `waitbuf` and `i` the length of `hdidx`.  The first
component of the result is the value returned from inside the loop, if any. -/
def do_pth_wait_loop (attr : Ptr) : Nat → World → Ptr → List HANDLE → List Nat →
    Except Stop (Option Int × List HANDLE × List Nat × World)
  | 0, w, tmp, waitbuf, hdidx =>
    if tmp = 0 then Except.ok (none, waitbuf, hdidx, w) else Except.error Stop.fuel
  | fuel + 1, w, tmp, waitbuf, hdidx =>
    if tmp = 0 then Except.ok (none, waitbuf, hdidx, w)
    else if waitbuf.length + 1 > MAXIMUM_WAIT_OBJECTS / 2 then
      match pth_attr_destroy (free_helper_threads w waitbuf hdidx hdidx.length) attr with
      | Except.error s => Except.error s
      | Except.ok (_, w1) => Except.ok (some (-1), waitbuf, hdidx, w1)
    else
      match w.ev tmp with
      | none => Except.error Stop.fault
      | some e =>
        match e.u_type with
        | pth_event_type.zero =>
          do_pth_wait_loop attr fuel w e.next (waitbuf ++ [e.hd]) hdidx
        | pth_event_type.PTH_EVENT_SIGS =>
          do_pth_wait_loop attr fuel w e.next (waitbuf ++ [w.pth_signo_ev]) hdidx
        | pth_event_type.PTH_EVENT_FD =>
          match spawn_helper_thread w attr thread_func.wait_fd_thread tmp with
          | Except.error s => Except.error s
          | Except.ok (th, w1) =>
            do_pth_wait_loop attr fuel w1 e.next (waitbuf ++ [th]) (hdidx ++ [waitbuf.length])
        | pth_event_type.PTH_EVENT_TIME =>
          match spawn_helper_thread w attr thread_func.wait_timer_thread tmp with
          | Except.error s => Except.error s
          | Except.ok (th, w1) =>
            do_pth_wait_loop attr fuel w1 e.next (waitbuf ++ [th]) (hdidx ++ [waitbuf.length])
        | pth_event_type.PTH_EVENT_MUTEX =>
          match w.mutex e.u.mx with
          | none => Except.error Stop.fault
          | some m =>
            do_pth_wait_loop attr fuel w e.next (waitbuf ++ [m.mx]) (hdidx ++ [waitbuf.length])

/-- The C `do_pth_wait (ev)`. -/
def do_pth_wait (fuel : Nat) (w : World) (ev : Ptr) : Run Int :=
  if ev = 0 then Except.ok (0, w)
  else
    let a := pth_attr_new w
    match pth_attr_set a.2 a.1 pth_attr_field.PTH_ATTR_JOINABLE 1 none with
    | Except.error s => Except.error s
    | Except.ok (_, w1) =>
      match pth_attr_set w1 a.1 pth_attr_field.PTH_ATTR_STACK_SIZE 4096 none with
      | Except.error s => Except.error s
      | Except.ok (_, w2) =>
        -- the argument of the fprintf: pth_event_count (ev)
        match pth_event_count fuel w2 ev with
        | Except.error s => Except.error s
        | Except.ok _ =>
          match do_pth_wait_loop a.1 fuel w2 ev [] [] with
          | Except.error s => Except.error s
          | Except.ok (some rc, _, _, w3) => Except.ok (rc, w3)
          | Except.ok (none, waitbuf, hdidx, w3) =>
            let r := WaitForMultipleObjects w3 waitbuf
            match pth_attr_destroy (free_helper_threads r.2 waitbuf hdidx hdidx.length) a.1 with
            | Except.error s => Except.error s
            | Except.ok (_, w4) =>
              if r.1 ≠ WAIT_TIMEOUT then Except.ok (1, w4) else Except.ok (0, w4)

/-- The C `pth_wait (ev)`. -/
def pth_wait (fuel : Nat) (w : World) (ev : Ptr) : Run Int :=
  match do_pth_wait fuel (enter_pth w) ev with
  | Except.error s => Except.error s
  | Except.ok (rc, w1) => Except.ok (rc, leave_pth w1)

/-- The variable arguments of `pth_event`, as each branch of
`do_pth_event_body` reads them with `va_arg` (the `pth_key_t` argument is
read and dropped by the source). -/
structure pth_event_args where
  sig : Ptr := 0
  val : Ptr := 0
  fd : Int := 0
  tv : timeval := {}
  mx : Ptr := 0
  deriving DecidableEq, Repr

/-- The C `pth_timeout (sec, usec)`. -/
def pth_timeout (sec usec : Int) : timeval :=
  { tv_sec := sec, tv_usec := usec }

/-- The branches of `do_pth_event_body` that fill the zeroed node from `spec`;
the second component tells whether `SetConsoleCtrlHandler` is called. -/
def do_pth_event_fill (spec : List pth_spec_bit) (arg : pth_event_args) : pth_event_s × Bool :=
  let ev : pth_event_s := {}
  if spec = [] then (ev, false)
  else if pth_spec_bit.PTH_EVENT_SIGS ∈ spec then
    ({ ev with u := { ev.u with sig := arg.sig }, u_type := pth_event_type.PTH_EVENT_SIGS,
               val := arg.val }, true)
  else if pth_spec_bit.PTH_EVENT_FD ∈ spec then
    let f1 := if pth_spec_bit.PTH_UNTIL_FD_READABLE ∈ spec
      then or_flag ev.flags pth_spec_bit.PTH_UNTIL_FD_READABLE else ev.flags
    let f2 := if pth_spec_bit.PTH_MODE_STATIC ∈ spec
      then or_flag f1 pth_spec_bit.PTH_MODE_STATIC else f1
    ({ ev with flags := f2, u_type := pth_event_type.PTH_EVENT_FD,
               u := { ev.u with fd := arg.fd } }, false)
  else if pth_spec_bit.PTH_EVENT_TIME ∈ spec then
    let f1 := if pth_spec_bit.PTH_MODE_STATIC ∈ spec
      then or_flag ev.flags pth_spec_bit.PTH_MODE_STATIC else ev.flags
    ({ ev with flags := f1, u_type := pth_event_type.PTH_EVENT_TIME,
               u := { ev.u with tv := { tv_sec := arg.tv.tv_sec, tv_usec := arg.tv.tv_usec } } },
      false)
  else if pth_spec_bit.PTH_EVENT_MUTEX ∈ spec then
    ({ ev with u_type := pth_event_type.PTH_EVENT_MUTEX, u := { ev.u with mx := arg.mx } }, false)
  else (ev, false)

/-- The C `do_pth_event_body (spec, arg)`: `calloc` answers the address of the
node and `CreateEvent (&sa, FALSE, FALSE, NULL)` the handle of a fresh
auto-reset, non-signalled event object; either may answer `NULL`. -/
def do_pth_event_body (w : World) (spec : List pth_spec_bit) (arg : pth_event_args) :
    Ptr × World :=
  let r := w.reply
  let ev : Ptr := r.1.toNat
  let w1 := r.2.log (Call.calloc ev)
  if ev = 0 then (0, w1)
  else
    let filled := do_pth_event_fill spec arg
    let w2 := if filled.2 then w1.log Call.SetConsoleCtrlHandler else w1
    let r2 := w2.reply
    let hd : HANDLE := r2.1.toNat
    let w3 := r2.2.log (Call.CreateEvent false hd)
    if hd = 0 then (0, (w3.setEv ev filled.1).freeEv ev)
    else
      (ev, { w3.setEv ev { filled.1 with hd := hd } with
             signaled := Function.update w3.signaled hd false,
             manual_reset := Function.update w3.manual_reset hd false })

/-- The C `do_pth_event (spec, ...)`. -/
def do_pth_event (w : World) (spec : List pth_spec_bit) (arg : pth_event_args) : Ptr × World :=
  do_pth_event_body w spec arg

/-- The C `pth_event (spec, ...)`. -/
def pth_event (w : World) (spec : List pth_spec_bit) (arg : pth_event_args) : Ptr × World :=
  let r := do_pth_event_body (enter_pth w) spec arg
  (r.1, leave_pth r.2)

/-- The C `pth_sleep (sec)`. -/
def pth_sleep (fuel : Nat) (w : World) (sec : Int) : Run Int :=
  let w0 := enter_pth w
  if sec = 0 then Except.ok (0, leave_pth w0)
  else
    let r := do_pth_event w0 [pth_spec_bit.PTH_EVENT_TIME, pth_spec_bit.PTH_MODE_STATIC]
      { tv := pth_timeout sec 0 }
    if r.1 = 0 then Except.ok (-1, leave_pth r.2)
    else
      match do_pth_wait fuel r.2 r.1 with
      | Except.error s => Except.error s
      | Except.ok (_, w1) =>
        match do_pth_event_free fuel w1 r.1 pth_free_mode.PTH_FREE_ALL with
        | Except.error s => Except.error s
        | Except.ok (_, w2) => Except.ok (0, leave_pth w2)

/-- Modelled from the spec: the descriptor modes `PTH_FDMODE_ERROR`,
`PTH_FDMODE_BLOCK` and `PTH_FDMODE_NONBLOCK` of `w32-pth.h`. -/
inductive pth_fdmode_t
  | PTH_FDMODE_ERROR
  | PTH_FDMODE_BLOCK
  | PTH_FDMODE_NONBLOCK
  deriving DecidableEq, Repr

/-- The native `ioctlsocket (fd, FIONBIO, &val)`: the operating system answers
`SOCKET_ERROR`, or it switches the socket to non-blocking mode when `val` is
not zero and to blocking mode when it is. -/
def ioctlsocket_FIONBIO (w : World) (fd : Int) (val : Nat) : Int × World :=
  let r := w.reply
  if r.1 = SOCKET_ERROR then (SOCKET_ERROR, r.2.log (Call.ioctlsocket fd val SOCKET_ERROR))
  else
    (r.1, { r.2 with
            nonblocking := Function.update r.2.nonblocking fd (decide (val ≠ 0)),
            trace := r.2.trace ++ [Call.ioctlsocket fd val r.1] })

/-- The C `pth_fdmode (fd, mode)`. -/
def pth_fdmode (w : World) (fd : Int) (mode : pth_fdmode_t) : pth_fdmode_t × World :=
  let ret := pth_fdmode_t.PTH_FDMODE_BLOCK
  match mode with
  | pth_fdmode_t.PTH_FDMODE_NONBLOCK =>
    let r := ioctlsocket_FIONBIO w fd 1
    if r.1 = SOCKET_ERROR then (pth_fdmode_t.PTH_FDMODE_ERROR, r.2) else (ret, r.2)
  | pth_fdmode_t.PTH_FDMODE_BLOCK =>
    let r := ioctlsocket_FIONBIO w fd 0
    if r.1 = SOCKET_ERROR then (pth_fdmode_t.PTH_FDMODE_ERROR, r.2) else (ret, r.2)
  | pth_fdmode_t.PTH_FDMODE_ERROR => (ret, w)

/-- The native `accept (fd, addr, addrlen)`: the operating system answers the
new descriptor, or `-1` followed by the error code `WSAGetLastError ()` will
return. -/
def accept (w : World) (fd : Int) : Int × World :=
  let r := w.reply
  let w1 := r.2.log (Call.accept fd r.1)
  if r.1 = -1 then
    let r2 := w1.reply
    (-1, { r2.2 with last_error := r2.1 })
  else (r.1, w1)

/-- The loop of `pth_accept_ev`, from the test of its `while` on; `ev` is the
local of that name, `walk` is the step budget of the chain walks inside. -/
def pth_accept_ev_loop (walk : Nat) (fd : Int) (ev_extra : Ptr) (fdmode : pth_fdmode_t) :
    Nat → World → Ptr → Run Int
  | 0, _, _ => Except.error Stop.fuel
  | fuel + 1, w, ev =>
    let acc := accept w fd
    if acc.1 = -1 ∧ (acc.2.last_error = WSAEINPROGRESS ∨ acc.2.last_error = WSAEWOULDBLOCK) then
      -- if (ev == NULL) { ev = do_pth_event (...); ... }
      let made : Except Stop (Option Ptr × World) :=
        if ev = 0 then
          let r := do_pth_event acc.2
            [pth_spec_bit.PTH_EVENT_FD, pth_spec_bit.PTH_UNTIL_FD_READABLE,
             pth_spec_bit.PTH_MODE_STATIC] { fd := fd }
          if r.1 = 0 then Except.ok (none, leave_pth r.2)
          else if ev_extra ≠ 0 then
            match pth_event_concat walk r.2 r.1 [ev_extra] with
            | Except.error s => Except.error s
            | Except.ok (_, w1) => Except.ok (some r.1, w1)
          else Except.ok (some r.1, r.2)
        else Except.ok (some ev, acc.2)
      match made with
      | Except.error s => Except.error s
      | Except.ok (none, w1) => Except.ok (-1, w1)
      | Except.ok (some ev1, w1) =>
        match do_pth_wait walk w1 ev1 with
        | Except.error s => Except.error s
        | Except.ok (_, w2) =>
          if ev_extra ≠ 0 then
            match pth_event_isolate w2 ev1 with
            | Except.error s => Except.error s
            | Except.ok (_, w3) =>
              match do_pth_event_status w3 ev1 with
              | Except.error s => Except.error s
              | Except.ok (st, w4) =>
                if st ≠ pth_status_t.PTH_STATUS_OCCURRED then
                  Except.ok (-1, leave_pth (pth_fdmode w4 fd fdmode).2)
                else pth_accept_ev_loop walk fd ev_extra fdmode fuel w4 ev1
          else pth_accept_ev_loop walk fd ev_extra fdmode fuel w2 ev1
    else
      Except.ok (acc.1, leave_pth (pth_fdmode acc.2 fd fdmode).2)

/-- The C `pth_accept_ev (fd, addr, addrlen, ev_extra)`. -/
def pth_accept_ev (fuel walk : Nat) (w : World) (fd : Int) (ev_extra : Ptr) : Run Int :=
  let w0 := enter_pth w
  let r := pth_fdmode w0 fd pth_fdmode_t.PTH_FDMODE_NONBLOCK
  if r.1 = pth_fdmode_t.PTH_FDMODE_ERROR then Except.ok (-1, leave_pth r.2)
  else pth_accept_ev_loop walk fd ev_extra r.1 fuel r.2 0

/-- The C `pth_mutex_release (hd)`. -/
def pth_mutex_release (w : World) (hd : Ptr) : Run Int :=
  if hd = 0 then Except.ok (-1, w)
  else
    let w0 := enter_pth w
    match w0.mutex hd with
    | none => Except.error Stop.fault
    | some m =>
      let w1 := if m.mx ≠ 0 then (CloseHandle w0 m.mx).setMutex hd { m with mx := 0 } else w0
      Except.ok (0, leave_pth (w1.freeMutex hd))

/-- The C `pth_mutex_acquire (hd, tryonly, ev_extra)`; the block under `#if 0`
is not compiled.  `PTH_MUTEX_LOCKED` is the constant of that name in `w32-pth.h`. -/
def pth_mutex_acquire (PTH_MUTEX_LOCKED : Nat) (w : World) (hd : Ptr) (_tryonly : Int)
    (_ev_extra : Ptr) : Run Int :=
  let w0 := enter_pth w
  if hd = 0 then Except.ok (-1, leave_pth w0)
  else
    match w0.mutex hd with
    | none => Except.error Stop.fault
    | some m =>
      if m.mx = 0 then Except.ok (-1, leave_pth w0)
      else Except.ok (0, leave_pth (w0.setMutex hd { m with mx_state := m.mx_state ||| PTH_MUTEX_LOCKED }))

/-- The C `pth_mutex_init (hd)`; `CreateMutex` answers the handle of the new
lock.  `PTH_MUTEX_INITIALIZED` is the constant of that name in `w32-pth.h`. -/
def pth_mutex_init (PTH_MUTEX_INITIALIZED : Nat) (w : World) (hd : Ptr) : Run Int :=
  let w0 := enter_pth w
  match w0.mutex hd with
  | none => Except.error Stop.fault
  | some m =>
    let w1 := if m.mx ≠ 0 then CloseHandle (w0.log (Call.ReleaseMutex m.mx)) m.mx else w0
    let r := w1.reply
    let h : HANDLE := r.1.toNat
    let w2 := r.2.log (Call.CreateMutex h)
    Except.ok (0, leave_pth (w2.setMutex hd { mx := h, mx_state := PTH_MUTEX_INITIALIZED }))

/-- The members of a node other than `next`. -/
def pth_event_s.payload (e : pth_event_s) : pth_event_s :=
  { e with next := 0 }

/-- The tag of the node at `p`. -/
def World.kind (w : World) (p : Ptr) : pth_event_type :=
  match w.events p with
  | some e => e.u_type
  | none => pth_event_type.zero

/-- The native handle of the node at `p`. -/
def World.hd_of (w : World) (p : Ptr) : HANDLE :=
  match w.events p with
  | some e => e.hd
  | none => 0

/-- The native lock handle of the mutex that the node at `p` refers to. -/
def World.lock_of (w : World) (p : Ptr) : Option HANDLE :=
  match w.events p with
  | some e => (w.mutex e.u.mx).map pth_mutex_t.mx
  | none => none

/-- The handles passed to `CloseHandle`, in order. -/
def closed_handles : List Call → List HANDLE
  | [] => []
  | Call.CloseHandle h :: t => h :: closed_handles t
  | _ :: t => closed_handles t

/-- The addresses passed to `free`, in order. -/
def freed : List Call → List Ptr
  | [] => []
  | Call.free p :: t => p :: freed t
  | _ :: t => freed t

/-- The handles `CreateThread` returned, in order. -/
def spawned_threads : List Call → List HANDLE
  | [] => []
  | Call.CreateThread _ _ _ ret :: t => ret :: spawned_threads t
  | _ :: t => spawned_threads t

/-- The handle batches passed to `WaitForMultipleObjects`, in order. -/
def wait_calls : List Call → List (List HANDLE)
  | [] => []
  | Call.WaitForMultipleObjects hs _ :: t => hs :: wait_calls t
  | _ :: t => wait_calls t

/-- The tags for which `do_pth_wait` starts a helper thread. -/
def spawns_thread (k : pth_event_type) : Bool :=
  k = pth_event_type.PTH_EVENT_FD || k = pth_event_type.PTH_EVENT_TIME

/-- The tags for which `do_pth_wait` writes the position into `hdidx`. -/
def is_recorded (k : pth_event_type) : Bool :=
  k = pth_event_type.PTH_EVENT_FD || k = pth_event_type.PTH_EVENT_TIME
    || k = pth_event_type.PTH_EVENT_MUTEX

/-- The positions, counted from `n`, of the recorded tags in a list of tags. -/
def recorded_positions : Nat → List pth_event_type → List Nat
  | _, [] => []
  | n, k :: ks =>
    if is_recorded k then n :: recorded_positions (n + 1) ks else recorded_positions (n + 1) ks

/-- The native calls `do_pth_wait` makes for the node at `p` when `h` is the
handle it puts into the batch for it. -/
def node_calls (a : pth_attr_s) (w : World) (p : Ptr) (h : HANDLE) : List Call :=
  match w.kind p with
  | pth_event_type.PTH_EVENT_FD => [Call.CreateThread a.stack_size thread_func.wait_fd_thread p h]
  | pth_event_type.PTH_EVENT_TIME =>
    [Call.CreateThread a.stack_size thread_func.wait_timer_thread p h]
  | _ => []

/-- The handle `h` is the one the node at `p` contributes to the wait batch:
its own event object, the signal event object, the lock of its mutex, or the
handle that a `CreateThread` call of the trace `t` for this node returned. -/
def wait_handle (w : World) (t : List Call) (p : Ptr) (h : HANDLE) : Prop :=
  match w.kind p with
  | pth_event_type.zero => h = w.hd_of p
  | pth_event_type.PTH_EVENT_SIGS => h = w.pth_signo_ev
  | pth_event_type.PTH_EVENT_MUTEX => w.lock_of p = some h
  | pth_event_type.PTH_EVENT_FD =>
    ∃ ss, Call.CreateThread ss thread_func.wait_fd_thread p h ∈ t
  | pth_event_type.PTH_EVENT_TIME =>
    ∃ ss, Call.CreateThread ss thread_func.wait_timer_thread p h ∈ t

/-- Every Mutex event of the list refers to a live mutex object. -/
def mutexes_live (w : World) (l : List Ptr) : Prop :=
  ∀ p ∈ l, w.kind p = pth_event_type.PTH_EVENT_MUTEX → ∃ h, w.lock_of p = some h

/-- The attribute bag `do_pth_wait` sets up for its helper threads. -/
def wait_attr : pth_attr_s :=
  { flags := [pth_attr_field.PTH_ATTR_JOINABLE, pth_attr_field.PTH_ATTR_STACK_SIZE],
    stack_size := 4096 }

/-- The state after the three attribute calls that open `do_pth_wait`; `A` is
the address `calloc` answered. -/
def World.with_wait_attr (w : World) (A : Ptr) : World :=
  (w.reply.2.log (Call.calloc A)).setAttr A wait_attr

/-- The handles of the batch `hs` that stand at the positions of the nodes of
`l` whose tag satisfies `sel`. -/
def batch_handles (w : World) (sel : pth_event_type → Bool) (l : List Ptr) (hs : List HANDLE) :
    List HANDLE :=
  ((l.zip hs).filter (fun x => sel (w.kind x.1))).map Prod.snd

/-- A chain of five events, one of each tag: a Generic event, a Signal event, a
DescriptorReadable event, a Timer event and a Mutex event on the mutex at `9`.
The answers are the address of the attribute bag, the handles of two helper
threads and the value of the native wait. -/
def wait_world : World :=
  { events := fun p =>
      if p = 1 then some { next := 2, hd := 11 }
      else if p = 2 then some { next := 3, hd := 12, u_type := pth_event_type.PTH_EVENT_SIGS }
      else if p = 3 then some { next := 4, hd := 13, u_type := pth_event_type.PTH_EVENT_FD,
                                u := { fd := 6 } }
      else if p = 4 then some { next := 5, hd := 14, u_type := pth_event_type.PTH_EVENT_TIME,
                                u := { tv := { tv_sec := 2 } } }
      else if p = 5 then some { hd := 15, u_type := pth_event_type.PTH_EVENT_MUTEX,
                                u := { mx := 9 } }
      else none,
    mutexes := fun p => if p = 9 then some { mx := 70, mx_state := 1 } else none,
    pth_signo_ev := 40,
    replies := [100, 51, 52, 0] }

/-- Two chains `1 → 2` and `4 → 5` and a single node `3`. -/
def concat_world : World :=
  { events := fun p =>
      if p = 1 then some { next := 2, hd := 11 }
      else if p = 2 then some { hd := 12, u_type := pth_event_type.PTH_EVENT_FD }
      else if p = 3 then some { hd := 13 }
      else if p = 4 then some { next := 5, hd := 14 }
      else if p = 5 then some { hd := 15 }
      else none }

/-- Walk the `next` links from `p` and list the nodes up to `NULL`; `none` when a
node is missing or the step budget runs out. -/
def chain_of : Nat → World → Ptr → Option (List Ptr)
  | 0, _, p => if p = 0 then some [] else none
  | fuel + 1, w, p =>
    if p = 0 then some []
    else
      match w.events p with
      | none => none
      | some e => (chain_of fuel w e.next).map (fun l => p :: l)

/-- The state in which `pth_sleep (5)` builds its event: the answers are the
address of the node, the handle of its event object, then, for the wait, the
address of the attribute bag, the handle of the helper thread and the value
`WAIT_OBJECT_0` of the native wait. -/
def sleep_world : World :=
  { replies := [1, 7, 100, 50, 0] }

/-- A single Mutex event at `1` on the mutex at `9`; the answers are the address
of the attribute bag and the value `WAIT_OBJECT_0` of the native wait. -/
def mutex_event_world : World :=
  { events := fun p =>
      if p = 1 then some { hd := 7, u_type := pth_event_type.PTH_EVENT_MUTEX, u := { mx := 9 } }
      else none,
    mutexes := fun p => if p = 9 then some { mx := 70, mx_state := 1 } else none,
    replies := [100, 0] }

/-- Three events made by `do_pth_event (0)` at the addresses `1`, `2`, `3` with
the handles `11`, `12`, `13`, then chained by `pth_event_concat (1, 2, 3, NULL)`. -/
def built_chain_world : World :=
  let r1 := do_pth_event { replies := [1, 11, 2, 12, 3, 13] } [] {}
  let r2 := do_pth_event r1.2 [] {}
  let r3 := do_pth_event r2.2 [] {}
  match pth_event_concat 3 r3.2 r1.1 [r2.1, r3.1] with
  | Except.ok (_, w) => w
  | Except.error _ => r3.2

/-- A mutex object at `9` with the lock handle `70` and the given state word. -/
def mutex_world (state : Nat) : World :=
  { mutexes := fun p => if p = 9 then some { mx := 70, mx_state := state } else none }

/-- The storage of a mutex at `9` that was never initialised; `CreateMutex` will
answer the handle `70`. -/
def fresh_mutex_world : World :=
  { mutexes := fun p => if p = 9 then some {} else none, replies := [70] }

/-- A listening socket `6` that is in non-blocking mode; `ioctlsocket`
succeeds, `accept` answers the new descriptor `8`, `ioctlsocket` succeeds. -/
def accept_nonblocking_world : World :=
  { nonblocking := fun fd => decide (fd = 6), replies := [0, 8, 0] }

/-- A listening socket `6` in blocking mode; `ioctlsocket` succeeds, `accept`
answers `-1` with `WSAEWOULDBLOCK`, and `calloc` answers `NULL`. -/
def accept_no_memory_world : World :=
  { replies := [0, -1, 10035, 0] }

/-- Modelled from the spec: whether the requested signal set holds `signo`, as
the loop that is commented out in `sigpresent` would compute it. -/
def sigset_s.has (ss : sigset_s) (signo : Int) : Bool :=
  decide (signo ∈ ss.sigs.take ss.idx)

/-- The native `SetEvent (h)`: the event object becomes signalled. -/
def SetEvent (w : World) (h : HANDLE) : World :=
  { w with signaled := Function.update w.signaled h true, trace := w.trace ++ [Call.SetEvent h] }

/-- A Signal event at `1` that asks for the signals `2` and `15` (the set at
`20`) with its output field at `30`; the pending-signal slot holds `2` and the
notification object `40` is signalled. -/
def signal_world : World :=
  { events := fun p =>
      if p = 1 then some { hd := 7, u_type := pth_event_type.PTH_EVENT_SIGS, u := { sig := 20 },
                           val := 30 }
      else none,
    sigsets := fun p => if p = 20 then some { sigs := [2, 15], idx := 2 } else none,
    ints := fun p => if p = 30 then some 0 else none,
    pth_signo := 2,
    pth_signo_ev := 40,
    signaled := fun h => decide (h = 40),
    manual_reset := fun h => decide (h = 40) }

/-- A Generic event made by `do_pth_event (0)` at the address `1` with the event
object `7`, which another thread then sets. -/
def generic_event_world : World :=
  SetEvent (do_pth_event { replies := [1, 7] } [] {}).2 7

/-- A DescriptorReadable event on the descriptor `6`, made by the factory at the
address `1` with the event object `7`, which its helper thread then sets. -/
def fd_event_world : World :=
  SetEvent (do_pth_event { replies := [1, 7] }
    [pth_spec_bit.PTH_EVENT_FD, pth_spec_bit.PTH_UNTIL_FD_READABLE, pth_spec_bit.PTH_MODE_STATIC]
    { fd := 6 }).2 7

/-- The C conversion `(int)n` of a `DWORD`: the value modulo `2^32`, read as a
signed 32-bit number. -/
def int_of_DWORD (n : Nat) : Int :=
  if n % 2 ^ 32 < 2 ^ 31 then ((n % 2 ^ 32 : Nat) : Int) else ((n % 2 ^ 32 : Nat) : Int) - 2 ^ 32

/-- The native `recv (fd, buffer, size, 0)`: the operating system answers the
number of bytes received, or `-1` followed by the error code `WSAGetLastError ()`
will return. -/
def recv (w : World) (fd : Int) (size : Nat) : Int × World :=
  let r := w.reply
  let w1 := r.2.log (Call.recv fd size r.1)
  if r.1 = -1 then
    let r2 := w1.reply
    (-1, { r2.2 with last_error := r2.1 })
  else (r.1, w1)

/-- The native `send (fd, buffer, size, 0)`, answered like `recv`. -/
def send (w : World) (fd : Int) (size : Nat) : Int × World :=
  let r := w.reply
  let w1 := r.2.log (Call.send fd size r.1)
  if r.1 = -1 then
    let r2 := w1.reply
    (-1, { r2.2 with last_error := r2.1 })
  else (r.1, w1)

/-- The native `ReadFile ((HANDLE)fd, buffer, size, &nread, NULL)`: the operating
system answers the `BOOL` result and, when it is not `FALSE`, the `DWORD` it
stores in `nread`; on `FALSE` the `0` the caller put there stays.  The result
is the pair of the `BOOL` and the value of `nread` after the call. -/
def ReadFile (w : World) (fd : Int) (size : Nat) : (Int × Nat) × World :=
  let r := w.reply
  if r.1 = 0 then ((0, 0), r.2.log (Call.ReadFile fd size 0 0))
  else
    let r2 := r.2.reply
    let nread : Nat := r2.1.toNat % 2 ^ 32
    ((r.1, nread), r2.2.log (Call.ReadFile fd size r.1 nread))

/-- The native `WriteFile ((HANDLE)fd, buffer, size, &nwrite, NULL)`, answered
like `ReadFile`; `nwrite` is read by the caller only when the result is not
`FALSE`. -/
def WriteFile (w : World) (fd : Int) (size : Nat) : (Int × Nat) × World :=
  let r := w.reply
  if r.1 = 0 then ((0, 0), r.2.log (Call.WriteFile fd size 0 0))
  else
    let r2 := r.2.reply
    let nwrite : Nat := r2.1.toNat % 2 ^ 32
    ((r.1, nwrite), r2.2.log (Call.WriteFile fd size r.1 nwrite))

/-- The C `pth_read (fd, buffer, size)`. -/
def pth_read (w : World) (fd : Int) (size : Nat) : Int × World :=
  let w0 := enter_pth w
  let r := recv w0 fd size
  if r.1 = -1 ∧ r.2.last_error = WSAENOTSOCK then
    let f := ReadFile r.2 fd size
    let n : Int := if f.1.1 = 0 then -1 else int_of_DWORD f.1.2
    (n, leave_pth f.2)
  else (r.1, leave_pth r.2)

/-- The results of the socket primitives `recv` and `send`, in order. -/
def socket_results : List Call → List Int
  | [] => []
  | Call.recv _ _ ret :: t => ret :: socket_results t
  | Call.send _ _ ret :: t => ret :: socket_results t
  | _ :: t => socket_results t

/-- The results of the file primitives `ReadFile` and `WriteFile`, in order:
the `BOOL` and the byte count. -/
def file_results : List Call → List (Int × Nat)
  | [] => []
  | Call.ReadFile _ _ ret n :: t => (ret, n) :: file_results t
  | Call.WriteFile _ _ ret n :: t => (ret, n) :: file_results t
  | _ :: t => file_results t

/-- Read the thread context at `p`; `NULL` holds none. -/
def World.priv (w : World) (p : Ptr) : Option _pth_priv_hd_s :=
  if p = 0 then none else w.privs p

/-- The C `free (p)` of a thread context. -/
def World.freePriv (w : World) (p : Ptr) : World :=
  { w with privs := Function.update w.privs p none, trace := w.trace ++ [Call.free p] }

/-- The C `do_pth_spawn (hd, func, arg)`: `calloc` answers the address of the
context and `CreateThread` the handle of the thread, which starts in
`helper_thread`; `func` is the address of the entry function. -/
def do_pth_spawn (w : World) (hd : Ptr) (func : Nat) (arg : Ptr) : Run HANDLE :=
  if hd = 0 then Except.ok (0, w)
  else
    let r := w.reply
    let ctx : Ptr := r.1.toNat
    let w1 := r.2.log (Call.calloc ctx)
    if ctx = 0 then Except.ok (0, w1)
    else
      let w2 : World :=
        { w1 with privs := Function.update w1.privs ctx (some { thread := func, arg := arg }) }
      match w2.attr hd with
      | none => Except.error Stop.fault
      | some a =>
        let r2 := w2.reply
        let th : HANDLE := r2.1.toNat
        Except.ok (th, r2.2.log (Call.CreateThread a.stack_size thread_func.helper_thread ctx th))

/-- The C `pth_spawn (hd, func, arg)`. -/
def pth_spawn (w : World) (hd : Ptr) (func : Nat) (arg : Ptr) : Run HANDLE :=
  if hd = 0 then Except.ok (0, w)
  else
    match do_pth_spawn (enter_pth w) hd func arg with
    | Except.error s => Except.error s
    | Except.ok (th, w1) => Except.ok (th, leave_pth w1)

/-- The C `helper_thread (ctx)`, up to the `ExitThread (0)` that ends the
thread.  `run f a` is what the code at the address `f` does to the state when
called with the argument `a`; the call itself is logged before it. -/
def helper_thread (run : Nat → Ptr → World → World) (w : World) (ctx : Ptr) : Except Stop World :=
  let w1 := leave_pth w
  match w1.priv ctx with
  | none => Except.error Stop.fault
  | some c =>
    let w2 := run c.thread c.arg (w1.log (Call.thread c.thread c.arg))
    let w3 := enter_pth w2
    Except.ok ((w3.freePriv ctx).log (Call.ExitThread 0))

/-- The operations on the critical section `pth_shd` and the call of the
entry function, in the order they appear in a trace. -/
def gate_ops : List Call → List Call
  | [] => []
  | Call.EnterCriticalSection :: t => Call.EnterCriticalSection :: gate_ops t
  | Call.LeaveCriticalSection :: t => Call.LeaveCriticalSection :: gate_ops t
  | Call.thread f a :: t => Call.thread f a :: gate_ops t
  | _ :: t => gate_ops t

/-- An attribute bag at `100` with the stack size `4096`; `calloc` will answer
the address `5` and `CreateThread` the handle `50`. -/
def spawn_world : World :=
  { attrs := fun p => if p = 100 then some { stack_size := 4096 } else none,
    replies := [5, 50] }

/-- The state after `do_pth_spawn (100, 1, 2)` in `spawn_world`: the context of
the new thread is at `5`, its entry function is the code at `1`. -/
def spawned_world : World :=
  match do_pth_spawn spawn_world 100 1 2 with
  | Except.ok (_, w) => w
  | Except.error _ => spawn_world

theorem World.ev_of_ne_zero (w : World) {p : Ptr} (hp : p ≠ 0) : w.ev p = w.events p := by
  simp [World.ev, hp]

theorem IsChain.cons_iff (w : World) (p q : Ptr) (l : List Ptr) :
    IsChain w p (q :: l) ↔ p = q ∧ q ≠ 0 ∧ ∃ e, w.events q = some e ∧ IsChain w e.next l := by
  constructor
  · intro h
    obtain ⟨h1, h2, h3⟩ := h
    subst h1
    refine ⟨rfl, h2, ?_⟩
    cases he : w.events p with
    | none => rw [he] at h3; exact h3.elim
    | some e => rw [he] at h3; exact ⟨e, rfl, h3⟩
  · rintro ⟨h1, h2, e, he, h3⟩
    subst h1
    refine ⟨rfl, h2, ?_⟩
    rw [he]
    exact h3

/-- A chain only depends on the cells of its own nodes. -/
theorem IsChain.frame (w w1 : World) : ∀ (l : List Ptr) (p : Ptr),
    (∀ x ∈ l, w1.events x = w.events x) → IsChain w p l → IsChain w1 p l
  | [], _, _, h => h
  | q :: l, p, hf, h => by
    rw [IsChain.cons_iff] at h ⊢
    obtain ⟨h1, h2, e, he, h3⟩ := h
    refine ⟨h1, h2, e, ?_, ?_⟩
    · rw [hf q (List.mem_cons_self _ _)]
      exact he
    · exact IsChain.frame w w1 l e.next (fun x hx => hf x (List.mem_cons_of_mem _ hx)) h3

/-- The chain that starts at an address is unique. -/
theorem IsChain.unique (w : World) : ∀ (l l1 : List Ptr) (p : Ptr),
    IsChain w p l → IsChain w p l1 → l = l1
  | [], [], _, _, _ => rfl
  | [], q :: l1, p, h, h1 => by
    rw [IsChain.cons_iff] at h1
    obtain ⟨h2, h3, _⟩ := h1
    have h0 : p = 0 := h
    exact (h3 (h2.symm.trans h0)).elim
  | q :: l, [], p, h, h1 => by
    rw [IsChain.cons_iff] at h
    obtain ⟨h2, h3, _⟩ := h
    have h0 : p = 0 := h1
    exact (h3 (h2.symm.trans h0)).elim
  | q :: l, q1 :: l1, p, h, h1 => by
    rw [IsChain.cons_iff] at h h1
    obtain ⟨h2, _, e, he, h3⟩ := h
    obtain ⟨h4, _, e1, he1, h5⟩ := h1
    subst h2
    subst h4
    rw [he] at he1
    cases he1
    rw [IsChain.unique w l l1 e.next h3 h5]

/-- Every suffix of a chain is the chain of its first node. -/
theorem IsChain.suffix (w : World) : ∀ (l1 : List Ptr) (q : Ptr) (l2 : List Ptr) (p : Ptr),
    IsChain w p (l1 ++ q :: l2) → IsChain w q (q :: l2)
  | [], q, l2, p, h => by
    have h1 := (IsChain.cons_iff w p q l2).1 h
    rw [IsChain.cons_iff]
    exact ⟨rfl, h1.2⟩
  | x :: l1, q, l2, p, h => by
    rw [List.cons_append, IsChain.cons_iff] at h
    obtain ⟨_, _, e, _, h3⟩ := h
    exact IsChain.suffix w l1 q l2 e.next h3

/-- A chain that ends in `NULL` visits no node twice. -/
theorem IsChain.nodup (w : World) : ∀ (l : List Ptr) (p : Ptr), IsChain w p l → l.Nodup
  | [], _, _ => List.nodup_nil
  | q :: l, p, h => by
    have h1 := (IsChain.cons_iff w p q l).1 h
    obtain ⟨hpq, _, e, _, h3⟩ := h1
    subst hpq
    rw [List.nodup_cons]
    refine ⟨?_, IsChain.nodup w l e.next h3⟩
    intro hmem
    obtain ⟨s, t, hst⟩ := List.append_of_mem hmem
    have h4 : IsChain w p (p :: t) := by
      apply IsChain.suffix w s p t e.next
      rw [← hst]
      exact h3
    have h5 := IsChain.unique w _ _ p h h4
    have h6 : (p :: l).length = (p :: t).length := by rw [h5]
    rw [hst] at h6
    simp at h6
    omega

theorem IsChain.not_zero_mem (w : World) : ∀ (l : List Ptr) (p : Ptr), IsChain w p l → (0 : Ptr) ∉ l
  | [], _, _ => by simp
  | q :: l, p, h => by
    rw [IsChain.cons_iff] at h
    obtain ⟨_, h2, e, _, h3⟩ := h
    have := IsChain.not_zero_mem w l e.next h3
    simp only [List.mem_cons, not_or]
    exact ⟨fun h0 => h2 h0.symm, this⟩

/-- The walk of `pth_event_add` stops at the last node of the chain. -/
theorem pth_event_add_walk_last (w : World) : ∀ (l : List Ptr) (n p : Ptr) (fuel : Nat),
    IsChain w p (l ++ [n]) → l.length + 1 ≤ fuel → pth_event_add_walk fuel w p = Except.ok n
  | [], n, p, fuel, h, hf => by
    obtain ⟨k, rfl⟩ : ∃ k, fuel = k + 1 := ⟨fuel - 1, by simp at hf; omega⟩
    rw [List.nil_append, IsChain.cons_iff] at h
    obtain ⟨h1, h2, e, he, h3⟩ := h
    subst h1
    have h0 : e.next = 0 := h3
    simp [pth_event_add_walk, World.ev, h2, he, h0]
  | q :: l, n, p, fuel, h, hf => by
    obtain ⟨k, rfl⟩ : ∃ k, fuel = k + 1 := ⟨fuel - 1, by simp at hf; omega⟩
    rw [List.cons_append, IsChain.cons_iff] at h
    obtain ⟨h1, h2, e, he, h3⟩ := h
    subst h1
    have hne : e.next ≠ 0 := by
      cases l with
      | nil =>
        rw [List.nil_append, IsChain.cons_iff] at h3
        intro h0
        exact h3.2.1 (h3.1.symm.trans h0)
      | cons x l =>
        rw [List.cons_append, IsChain.cons_iff] at h3
        intro h0
        exact h3.2.1 (h3.1.symm.trans h0)
    have ih := pth_event_add_walk_last w l n e.next k h3 (by simp at hf; omega)
    simp [pth_event_add_walk, World.ev, h2, he, hne, ih]

/-- Storing `node` in the `next` member of the last node of a chain appends
the chain of `node`. -/
theorem IsChain.append_at_last (w : World) (n node : Ptr) (en : pth_event_s) (lb : List Ptr)
    (hen : w.events n = some en) (hb : IsChain w node lb) (hnb : n ∉ lb) :
    ∀ (l : List Ptr) (p : Ptr), IsChain w p (l ++ [n]) → n ∉ l → (∀ x ∈ l, x ∉ lb) →
      IsChain (w.setEv n { en with next := node }) p (l ++ n :: lb)
  | [], p, h, _, _ => by
    rw [List.nil_append, IsChain.cons_iff] at h ⊢
    obtain ⟨h1, h2, _⟩ := h
    refine ⟨h1, h2, { en with next := node }, by simp [World.setEv], ?_⟩
    apply IsChain.frame w _ lb node _ hb
    intro x hx
    have hxn : x ≠ n := fun h => hnb (h ▸ hx)
    simp [World.setEv, Function.update, hxn]
  | q :: l, p, h, hn, hd => by
    rw [List.cons_append, IsChain.cons_iff] at h ⊢
    obtain ⟨h1, h2, e, he, h3⟩ := h
    have hqn : q ≠ n := fun h => hn (h ▸ List.mem_cons_self _ _)
    refine ⟨h1, h2, e, by simp [World.setEv, Function.update, hqn, he], ?_⟩
    exact IsChain.append_at_last w n node en lb hen hb hnb l e.next h3
      (fun h => hn (List.mem_cons_of_mem _ h)) (fun x hx => hd x (List.mem_cons_of_mem _ hx))

/-- What `pth_event_add` does to a chain: the chain of `node` is appended, no
member other than one `next` is written and nothing but the event heap changes. -/
theorem pth_event_add_chain (w : World) (root node : Ptr) (la lb : List Ptr) (fuel : Nat)
    (ha : IsChain w root la) (hroot : root ≠ 0) (hb : IsChain w node lb)
    (hdisj : ∀ x ∈ la, x ∉ lb) (hfuel : la.length ≤ fuel) :
    ∃ w1, pth_event_add fuel w root node = Except.ok w1 ∧ IsChain w1 root (la ++ lb) ∧
      (∀ x, x ∉ la → w1.events x = w.events x) ∧
      (∀ x, (w1.events x).map pth_event_s.payload = (w.events x).map pth_event_s.payload) ∧
      w1 = { w with events := w1.events } := by
  have hla : la ≠ [] := by
    intro h0
    subst h0
    exact hroot ha
  obtain ⟨l, n, rfl⟩ : ∃ l n, la = l ++ [n] :=
    ⟨la.dropLast, la.getLast hla, (List.dropLast_append_getLast hla).symm⟩
  have hwalk := pth_event_add_walk_last w l n root fuel ha (by simpa using hfuel)
  have hsuf := IsChain.suffix w l n [] root ha
  rw [IsChain.cons_iff] at hsuf
  obtain ⟨_, hn0, en, hen, _⟩ := hsuf
  have hnd := IsChain.nodup w _ root ha
  rw [List.nodup_append] at hnd
  have hnl : n ∉ l := fun h => hnd.2.2 h (List.mem_singleton_self n)
  refine ⟨w.setEv n { en with next := node }, ?_, ?_, ?_, ?_, rfl⟩
  · simp [pth_event_add, hwalk, World.ev, hn0, hen]
  · have := IsChain.append_at_last w n node en lb hen hb
      (hdisj n (by simp)) l root ha hnl (fun x hx => hdisj x (by simp [hx]))
    simpa using this
  · intro x hx
    have hxn : x ≠ n := fun h => hx (by simp [h])
    simp [World.setEv, Function.update, hxn]
  · intro x
    by_cases hxn : x = n
    · subst hxn
      simp [World.setEv, hen, pth_event_s.payload]
    · simp [World.setEv, Function.update, hxn]

theorem World.events_only_trans {w w1 w2 : World} (h1 : w1 = { w with events := w1.events })
    (h2 : w2 = { w1 with events := w2.events }) : w2 = { w with events := w2.events } := by
  rw [h1] at h2
  exact h2

/-- The loop of `pth_event_concat` appends the chains of its arguments in order. -/
theorem pth_event_concat_args_chain : ∀ (bs : List (Ptr × List Ptr)) (w : World) (a : Ptr)
    (la : List Ptr) (fuel : Nat),
    IsChain w a la → a ≠ 0 → (∀ b ∈ bs, b.1 ≠ 0 ∧ IsChain w b.1 b.2) →
    List.Pairwise List.Disjoint (la :: bs.map Prod.snd) →
    (la ++ (bs.map Prod.snd).flatten).length ≤ fuel →
    ∃ w1, pth_event_concat_args fuel w a (bs.map Prod.fst) = Except.ok w1 ∧
      IsChain w1 a (la ++ (bs.map Prod.snd).flatten) ∧
      (∀ x, x ∉ la ++ (bs.map Prod.snd).flatten → w1.events x = w.events x) ∧
      (∀ x, (w1.events x).map pth_event_s.payload = (w.events x).map pth_event_s.payload) ∧
      w1 = { w with events := w1.events }
  | [], w, a, la, fuel, ha, _, _, _, _ => by
    refine ⟨w, by simp [pth_event_concat_args], by simpa using ha, fun _ _ => rfl, fun _ => rfl, rfl⟩
  | (b, lb) :: bs, w, a, la, fuel, ha, ha0, hbs, hpw, hfuel => by
    have hb := hbs (b, lb) (List.mem_cons_self _ _)
    simp only [List.map_cons, List.pairwise_cons, List.mem_cons, forall_eq_or_imp,
      List.mem_map, forall_exists_index, and_imp] at hpw
    obtain ⟨⟨hab, harest⟩, hbrest, hrest⟩ := hpw
    simp only [List.map_cons, List.flatten_cons, List.length_append] at hfuel
    obtain ⟨w1, hadd, hch, hfr, hpay, hw1⟩ := pth_event_add_chain w a b la lb fuel ha ha0 hb.2
      (fun x hx hx1 => hab hx hx1) (by omega)
    have hbs1 : ∀ c ∈ bs, c.1 ≠ 0 ∧ IsChain w1 c.1 c.2 := by
      intro c hc
      have h := hbs c (List.mem_cons_of_mem _ hc)
      refine ⟨h.1, IsChain.frame w w1 c.2 c.1 ?_ h.2⟩
      intro x hx
      apply hfr
      intro hxa
      exact harest c.2 c hc rfl hxa hx
    have hpw1 : List.Pairwise List.Disjoint ((la ++ lb) :: bs.map Prod.snd) := by
      simp only [List.pairwise_cons, List.mem_map, forall_exists_index, and_imp]
      refine ⟨?_, hrest⟩
      intro l c hc hl
      rw [List.disjoint_append_left]
      exact ⟨harest l c hc hl, hbrest l c hc hl⟩
    obtain ⟨w2, hrun, hch2, hfr2, hpay2, hw2⟩ := pth_event_concat_args_chain bs w1 a (la ++ lb) fuel
      hch ha0 hbs1 hpw1 (by simp only [List.length_append]; omega)
    refine ⟨w2, ?_, ?_, ?_, ?_, World.events_only_trans hw1 hw2⟩
    · simp [pth_event_concat_args, hb.1, hadd, hrun]
    · simpa [List.append_assoc] using hch2
    · intro x hx
      simp only [List.map_cons, List.flatten_cons, List.mem_append, not_or] at hx
      rw [hfr2 x (by simp only [List.mem_append, not_or]; exact ⟨⟨hx.1, hx.2.1⟩, hx.2.2⟩)]
      exact hfr x hx.1
    · intro x
      rw [hpay2 x, hpay x]

/-- Claim C2.  Let `a` be a non-absent chain with nodes `la`, and let the
arguments after it be the heads of chains `bs`, none absent, all pairwise
disjoint from `la` and from each other.  Then, with a step budget of at least
the total number of nodes, `pth_event_concat` returns `a` itself and the chain
reachable from `a` through the `next` links is `la` followed by the nodes of
each argument in order; only `next` members of event nodes are written, and no
cell outside the chains changes.  When the first argument is absent the call
returns `NULL` and the state is unchanged, whatever the other arguments are. -/
theorem pth_event_concat_appends (w : World) (a : Ptr) (la : List Ptr)
    (bs : List (Ptr × List Ptr)) (fuel : Nat)
    (ha : IsChain w a la) (ha0 : a ≠ 0) (hbs : ∀ b ∈ bs, b.1 ≠ 0 ∧ IsChain w b.1 b.2)
    (hdisj : List.Pairwise List.Disjoint (la :: bs.map Prod.snd))
    (hfuel : (la ++ (bs.map Prod.snd).flatten).length ≤ fuel) :
    (∃ w1, pth_event_concat fuel w a (bs.map Prod.fst) = Except.ok (a, w1) ∧
      IsChain w1 a (la ++ (bs.map Prod.snd).flatten) ∧
      (∀ x, x ∉ la ++ (bs.map Prod.snd).flatten → w1.events x = w.events x) ∧
      (∀ x, (w1.events x).map pth_event_s.payload = (w.events x).map pth_event_s.payload) ∧
      w1 = { w with events := w1.events }) ∧
    (∀ (args : List Ptr) (n : Nat), pth_event_concat n w 0 args = Except.ok (0, w)) := by
  constructor
  · obtain ⟨w1, hrun, h⟩ := pth_event_concat_args_chain bs w a la fuel ha ha0 hbs hdisj hfuel
    exact ⟨w1, by simp [pth_event_concat, ha0, hrun], h⟩
  · intro args n
    simp [pth_event_concat]

/-- The theorem `pth_event_concat_appends` at `concat_world`: the chain `1, 2`
followed by the node `3` and the chain `4, 5`. -/
theorem pth_event_concat_appends_witness :
    (∃ w1, pth_event_concat 5 concat_world 1 [3, 4] = Except.ok (1, w1) ∧
      IsChain w1 1 [1, 2, 3, 4, 5] ∧
      (∀ x, x ∉ [1, 2, 3, 4, 5] → w1.events x = concat_world.events x) ∧
      (∀ x, (w1.events x).map pth_event_s.payload
        = (concat_world.events x).map pth_event_s.payload) ∧
      w1 = { concat_world with events := w1.events }) ∧
    (∀ (args : List Ptr) (n : Nat), pth_event_concat n concat_world 0 args
      = Except.ok (0, concat_world)) :=
  pth_event_concat_appends concat_world 1 [1, 2] [(3, [3]), (4, [4, 5])] 5
    (by simp [IsChain, concat_world]) (by decide)
    (by simp [IsChain, concat_world])
    (by simp [List.Disjoint]) (by simp)

/-! ## The loop of `do_pth_wait` -/

theorem wait_handle_mono (w : World) (t t1 : List Call) (p : Ptr) (h : HANDLE)
    (hsub : ∀ c ∈ t, c ∈ t1) (hw : wait_handle w t p h) : wait_handle w t1 p h := by
  unfold wait_handle at hw ⊢
  cases hk : w.kind p <;> rw [hk] at hw <;> simp only at hw ⊢
  · exact hw
  · exact hw
  · obtain ⟨ss, hss⟩ := hw
    exact ⟨ss, hsub _ hss⟩
  · obtain ⟨ss, hss⟩ := hw
    exact ⟨ss, hsub _ hss⟩
  · exact hw

theorem World.replies_trace_trans {w w1 w2 : World}
    (h1 : w1 = { w with replies := w1.replies, trace := w1.trace })
    (h2 : w2 = { w1 with replies := w2.replies, trace := w2.trace }) :
    w2 = { w with replies := w2.replies, trace := w2.trace } := by
  rw [h1] at h2
  exact h2

/-- Taking an answer and logging a call leaves the heaps alone. -/
theorem World.kind_step (w : World) (c : Call) : (w.reply.2.log c).kind = w.kind := rfl

theorem node_calls_step (a : pth_attr_s) (w : World) (c : Call) :
    node_calls a (w.reply.2.log c) = node_calls a w := rfl

theorem wait_handle_step (w : World) (c : Call) :
    wait_handle (w.reply.2.log c) = wait_handle w := rfl

theorem mutexes_live_step (w : World) (c : Call) (l : List Ptr) (h : mutexes_live w l) :
    mutexes_live (w.reply.2.log c) l := h

theorem World.attr_step (w : World) (c : Call) (p : Ptr) : (w.reply.2.log c).attr p = w.attr p :=
  rfl

theorem World.trace_step (w : World) (c : Call) : (w.reply.2.log c).trace = w.trace ++ [c] := rfl

theorem IsChain.step (w : World) (c : Call) (p : Ptr) (l : List Ptr) (h : IsChain w p l) :
    IsChain (w.reply.2.log c) p l :=
  IsChain.frame w _ l p (fun _ _ => rfl) h

/-- The loop of `do_pth_wait` over a segment `l1` of the chain that fits into
the batch: one handle per node is appended to `waitbuf`, the positions of the
recorded nodes are appended to `hdidx`, and only the trace and the answers
left change. -/
theorem do_pth_wait_loop_segment (attr : Ptr) (a : pth_attr_s) :
    ∀ (l1 l2 : List Ptr) (tmp : Ptr) (w : World) (wb : List HANDLE) (hi : List Nat),
    IsChain w tmp (l1 ++ l2) → w.attr attr = some a → mutexes_live w l1 →
    wb.length + l1.length ≤ MAXIMUM_WAIT_OBJECTS / 2 →
    ∃ hs w1,
      hs.length = l1.length ∧
      w1 = { w with replies := w1.replies, trace := w1.trace } ∧
      w1.trace = w.trace ++ (List.zipWith (node_calls a w) l1 hs).flatten ∧
      List.Forall₂ (fun p h => wait_handle w (node_calls a w p h) p h) l1 hs ∧
      ∀ k, do_pth_wait_loop attr (l1.length + k) w tmp wb hi =
        do_pth_wait_loop attr k w1 (l2.headD 0) (wb ++ hs)
          (hi ++ recorded_positions wb.length (l1.map w.kind))
  | [], l2, tmp, w, wb, hi, hch, _, _, _ => by
    refine ⟨[], w, rfl, rfl, by simp, List.Forall₂.nil, ?_⟩
    intro k
    have htmp : tmp = l2.headD 0 := by
      cases l2 with
      | nil => exact hch
      | cons q l2 => exact ((IsChain.cons_iff w tmp q l2).1 hch).1
    simp [recorded_positions, htmp]
  | p :: l1, l2, tmp, w, wb, hi, hch, hattr, hmx, hlen => by
    rw [List.cons_append, IsChain.cons_iff] at hch
    obtain ⟨hp, hp0, e, he, hnext⟩ := hch
    subst hp
    have hlen1 : ∀ x : HANDLE, (wb ++ [x]).length + l1.length ≤ MAXIMUM_WAIT_OBJECTS / 2 := by
      intro x
      simp only [List.length_append, List.length_cons, List.length_nil] at hlen ⊢
      omega
    have hnot : ¬ (wb.length + 1 > MAXIMUM_WAIT_OBJECTS / 2) := by
      simp only [List.length_cons] at hlen
      omega
    have hmx1 : mutexes_live w l1 := fun q hq => hmx q (List.mem_cons_of_mem _ hq)
    have hkind : w.kind tmp = e.u_type := by simp [World.kind, he]
    have hfuel : ∀ k, (tmp :: l1).length + k = (l1.length + k) + 1 := by
      intro k
      simp only [List.length_cons]
      omega
    cases hk : e.u_type with
    | zero =>
      obtain ⟨hs, w1, h1, h2, h3, h4, h5⟩ :=
        do_pth_wait_loop_segment attr a l1 l2 e.next w (wb ++ [e.hd]) hi hnext hattr hmx1
          (hlen1 _)
      refine ⟨e.hd :: hs, w1, by simp [h1], h2, ?_, ?_, ?_⟩
      · rw [h3]
        simp [node_calls, hkind, hk]
      · refine List.Forall₂.cons ?_ h4
        simp [wait_handle, hkind, hk, World.hd_of, he]
      · intro k
        rw [hfuel k]
        simp only [do_pth_wait_loop, hp0, if_false, hnot, World.ev, he, hk]
        rw [h5 k]
        simp [recorded_positions, is_recorded, hkind, hk]
    | PTH_EVENT_SIGS =>
      obtain ⟨hs, w1, h1, h2, h3, h4, h5⟩ :=
        do_pth_wait_loop_segment attr a l1 l2 e.next w (wb ++ [w.pth_signo_ev]) hi hnext hattr
          hmx1 (hlen1 _)
      refine ⟨w.pth_signo_ev :: hs, w1, by simp [h1], h2, ?_, ?_, ?_⟩
      · rw [h3]
        simp [node_calls, hkind, hk]
      · refine List.Forall₂.cons ?_ h4
        simp [wait_handle, hkind, hk]
      · intro k
        rw [hfuel k]
        simp only [do_pth_wait_loop, hp0, if_false, hnot, World.ev, he, hk]
        rw [h5 k]
        simp [recorded_positions, is_recorded, hkind, hk]
    | PTH_EVENT_FD =>
      obtain ⟨hs, w1, h1, h2, h3, h4, h5⟩ :=
        do_pth_wait_loop_segment attr a l1 l2 e.next
          (w.reply.2.log (Call.CreateThread a.stack_size thread_func.wait_fd_thread tmp
            w.reply.1.toNat))
          (wb ++ [w.reply.1.toNat]) (hi ++ [wb.length]) (IsChain.step w _ _ _ hnext) hattr
          (mutexes_live_step w _ _ hmx1) (hlen1 _)
      simp only [World.kind_step, node_calls_step, wait_handle_step, World.trace_step] at h3 h4 h5
      refine ⟨w.reply.1.toNat :: hs, w1, by simp [h1], World.replies_trace_trans rfl h2, ?_, ?_,
        ?_⟩
      · rw [h3]
        simp [node_calls, hkind, hk]
      · refine List.Forall₂.cons ?_ h4
        simp [wait_handle, node_calls, hkind, hk]
      · intro k
        rw [hfuel k]
        simp only [do_pth_wait_loop, hp0, if_false, hnot, World.ev, he, hk, spawn_helper_thread,
          hattr]
        rw [h5 k]
        simp [recorded_positions, is_recorded, hkind, hk]
    | PTH_EVENT_TIME =>
      obtain ⟨hs, w1, h1, h2, h3, h4, h5⟩ :=
        do_pth_wait_loop_segment attr a l1 l2 e.next
          (w.reply.2.log (Call.CreateThread a.stack_size thread_func.wait_timer_thread tmp
            w.reply.1.toNat))
          (wb ++ [w.reply.1.toNat]) (hi ++ [wb.length]) (IsChain.step w _ _ _ hnext) hattr
          (mutexes_live_step w _ _ hmx1) (hlen1 _)
      simp only [World.kind_step, node_calls_step, wait_handle_step, World.trace_step] at h3 h4 h5
      refine ⟨w.reply.1.toNat :: hs, w1, by simp [h1], World.replies_trace_trans rfl h2, ?_, ?_,
        ?_⟩
      · rw [h3]
        simp [node_calls, hkind, hk]
      · refine List.Forall₂.cons ?_ h4
        simp [wait_handle, node_calls, hkind, hk]
      · intro k
        rw [hfuel k]
        simp only [do_pth_wait_loop, hp0, if_false, hnot, World.ev, he, hk, spawn_helper_thread,
          hattr]
        rw [h5 k]
        simp [recorded_positions, is_recorded, hkind, hk]
    | PTH_EVENT_MUTEX =>
      obtain ⟨h, hlock⟩ := hmx tmp (List.mem_cons_self _ _) (hkind.trans hk)
      have hm : ∃ m, w.mutex e.u.mx = some m ∧ m.mx = h := by
        simpa [World.lock_of, he] using hlock
      obtain ⟨m, hm1, hm2⟩ := hm
      obtain ⟨hs, w1, h1, h2, h3, h4, h5⟩ :=
        do_pth_wait_loop_segment attr a l1 l2 e.next w (wb ++ [m.mx]) (hi ++ [wb.length]) hnext
          hattr hmx1 (hlen1 _)
      refine ⟨m.mx :: hs, w1, by simp [h1], h2, ?_, ?_, ?_⟩
      · rw [h3]
        simp [node_calls, hkind, hk]
      · refine List.Forall₂.cons ?_ h4
        simp [wait_handle, hkind, hk, hlock, hm2]
      · intro k
        rw [hfuel k]
        simp only [do_pth_wait_loop, hp0, if_false, hnot, World.ev, he, hk, hm1]
        rw [h5 k]
        simp [recorded_positions, is_recorded, hkind, hk]

/-- The walk of `pth_event_count` counts the nodes of the chain. -/
theorem pth_event_count_walk_chain (w : World) : ∀ (l : List Ptr) (p : Ptr) (cnt : Int) (fuel : Nat),
    IsChain w p l → l.length ≤ fuel → pth_event_count_walk fuel w p cnt = Except.ok (cnt + l.length)
  | [], p, cnt, fuel, h, _ => by
    have h0 : p = 0 := h
    cases fuel <;> simp [pth_event_count_walk, h0]
  | q :: l, p, cnt, fuel, h, hf => by
    obtain ⟨k, rfl⟩ : ∃ k, fuel = k + 1 := ⟨fuel - 1, by simp at hf; omega⟩
    rw [IsChain.cons_iff] at h
    obtain ⟨h1, h2, e, he, h3⟩ := h
    subst h1
    have ih := pth_event_count_walk_chain w l e.next (cnt + 1) k h3 (by simp at hf; omega)
    simp only [pth_event_count_walk, h2, if_false, World.ev, he, ih, List.length_cons]
    congr 1
    push_cast
    ring

theorem pth_event_count_chain (w : World) (l : List Ptr) (p : Ptr) (fuel : Nat)
    (h : IsChain w p l) (hf : l.length ≤ fuel) : pth_event_count fuel w p = Except.ok (l.length : Int) := by
  unfold pth_event_count
  split
  · next h0 =>
    subst h0
    cases l with
    | nil => rfl
    | cons q l =>
      rw [IsChain.cons_iff] at h
      exact (h.2.1 h.1.symm).elim
  · rw [pth_event_count_walk_chain w l p 0 fuel h hf]
    simp

/-- The trace `free_helper_threads` leaves: one `CloseHandle` per recorded position. -/
theorem free_helper_threads_eq (wb : List HANDLE) : ∀ (hi : List Nat) (w : World),
    free_helper_threads w wb hi hi.length =
      { w with trace := w.trace ++ hi.map (fun i => Call.CloseHandle (wb.getD i 0)) }
  | [], w => by simp [free_helper_threads]
  | i :: hi, w => by
    have ih := free_helper_threads_eq wb hi (CloseHandle w (wb.getD i 0))
    simp only [free_helper_threads, List.take_length, List.foldl_cons, List.map_cons] at ih ⊢
    rw [ih]
    simp [CloseHandle, World.log]

theorem World.attr_setAttr (w : World) (p : Ptr) (a : pth_attr_s) (hp : p ≠ 0) :
    (w.setAttr p a).attr p = some a := by
  simp [World.attr, World.setAttr, hp]

theorem World.setAttr_setAttr (w : World) (p : Ptr) (a b : pth_attr_s) :
    (w.setAttr p a).setAttr p b = w.setAttr p b := by
  simp [World.setAttr]

theorem pth_attr_new_ok (w : World) (hA : w.reply.1.toNat ≠ 0) :
    pth_attr_new w = (w.reply.1.toNat, (w.reply.2.log (Call.calloc w.reply.1.toNat)).setAttr
      w.reply.1.toNat {}) := by
  unfold pth_attr_new
  exact if_neg hA

theorem pth_attr_set_joinable (w : World) (hd : Ptr) (a : pth_attr_s) (h : w.attr hd = some a) :
    pth_attr_set w hd pth_attr_field.PTH_ATTR_JOINABLE 1 none = Except.ok (0, w.setAttr hd
      { a with flags := or_flag a.flags pth_attr_field.PTH_ATTR_JOINABLE }) := by
  simp [pth_attr_set, h]

theorem pth_attr_set_stack_size (w : World) (hd : Ptr) (a : pth_attr_s) (h : w.attr hd = some a) :
    pth_attr_set w hd pth_attr_field.PTH_ATTR_STACK_SIZE 4096 none = Except.ok (0, w.setAttr hd
      { a with flags := or_flag a.flags pth_attr_field.PTH_ATTR_STACK_SIZE, stack_size := 4096 }) := by
  simp [pth_attr_set, h]

theorem do_pth_wait_setup (w : World) (hA : w.reply.1.toNat ≠ 0) :
    ∃ w1, pth_attr_set (pth_attr_new w).2 (pth_attr_new w).1 pth_attr_field.PTH_ATTR_JOINABLE 1 none
        = Except.ok (0, w1) ∧
      pth_attr_set w1 (pth_attr_new w).1 pth_attr_field.PTH_ATTR_STACK_SIZE 4096 none
        = Except.ok (0, w.with_wait_attr w.reply.1.toNat) ∧
      (pth_attr_new w).1 = w.reply.1.toNat := by
  rw [pth_attr_new_ok w hA]
  refine ⟨_, pth_attr_set_joinable _ _ _ (World.attr_setAttr _ _ _ hA), ?_, rfl⟩
  rw [pth_attr_set_stack_size _ _ _ (World.attr_setAttr _ _ _ hA)]
  simp only [World.setAttr_setAttr, World.with_wait_attr]
  rfl

theorem pth_attr_destroy_ok (w : World) (hd : Ptr) (a : pth_attr_s) (h : w.attr hd = some a)
    (hname : a.name = none) (hp : hd ≠ 0) : pth_attr_destroy w hd = Except.ok (0, w.freeAttr hd) := by
  simp [pth_attr_destroy, hp, h, hname]

theorem do_pth_wait_loop_null (attr : Ptr) (k : Nat) (w : World) (wb : List HANDLE) (hi : List Nat) :
    do_pth_wait_loop attr k w 0 wb hi = Except.ok (none, wb, hi, w) := by
  cases k <;> simp [do_pth_wait_loop]

/-- What `do_pth_wait` does on a chain of live nodes: the result, the batch
`hs` of handles (one per node among the first `MAXIMUM_WAIT_OBJECTS / 2`) and
the calls it makes, in order. -/
theorem do_pth_wait_summary (w : World) (ev : Ptr) (l : List Ptr) (fuel : Nat)
    (hch : IsChain w ev l) (hne : ev ≠ 0) (hfuel : l.length ≤ fuel) (hmx : mutexes_live w l)
    (hA : w.reply.1.toNat ≠ 0) :
    ∃ (hs : List HANDLE) (n : Nat) (rc : Int) (w1 : World),
      do_pth_wait fuel w ev = Except.ok (rc, w1) ∧
      hs.length = (l.take (MAXIMUM_WAIT_OBJECTS / 2)).length ∧
      List.Forall₂ (fun p h => wait_handle w (node_calls wait_attr w p h) p h)
        (l.take (MAXIMUM_WAIT_OBJECTS / 2)) hs ∧
      w1.trace = w.trace ++ ([Call.calloc w.reply.1.toNat]
        ++ (List.zipWith (node_calls wait_attr w) (l.take (MAXIMUM_WAIT_OBJECTS / 2)) hs).flatten
        ++ (if l.length ≤ MAXIMUM_WAIT_OBJECTS / 2 then [Call.WaitForMultipleObjects hs n] else [])
        ++ (recorded_positions 0 ((l.take (MAXIMUM_WAIT_OBJECTS / 2)).map w.kind)).map
            (fun i => Call.CloseHandle (hs.getD i 0))
        ++ [Call.free w.reply.1.toNat]) ∧
      rc = (if MAXIMUM_WAIT_OBJECTS / 2 < l.length then -1
            else if n ≠ WAIT_TIMEOUT then 1 else 0) ∧
      w1.events = w.events ∧ w1.mutexes = w.mutexes := by
  obtain ⟨w0, hset1, hset2, hnew⟩ := do_pth_wait_setup w hA
  rw [hnew] at hset1 hset2
  have hch2 : IsChain (w.with_wait_attr w.reply.1.toNat) ev l :=
    IsChain.frame w _ l ev (fun _ _ => rfl) hch
  have hcount := pth_event_count_chain _ l ev fuel hch2 hfuel
  have hattr2 : (w.with_wait_attr w.reply.1.toNat).attr w.reply.1.toNat = some wait_attr :=
    World.attr_setAttr _ _ _ hA
  have hmx2 : mutexes_live (w.with_wait_attr w.reply.1.toNat) (l.take (MAXIMUM_WAIT_OBJECTS / 2)) :=
    fun p hp => hmx p (List.mem_of_mem_take hp)
  have hlt : (l.take (MAXIMUM_WAIT_OBJECTS / 2)).length ≤ MAXIMUM_WAIT_OBJECTS / 2 := by
    rw [List.length_take]
    exact Nat.min_le_left _ _
  obtain ⟨hs, w3, hl, hw3, htr, hfa, hloop⟩ :=
    do_pth_wait_loop_segment w.reply.1.toNat wait_attr (l.take (MAXIMUM_WAIT_OBJECTS / 2))
      (l.drop (MAXIMUM_WAIT_OBJECTS / 2)) ev (w.with_wait_attr w.reply.1.toNat) [] []
      (by rw [List.take_append_drop]; exact hch2) hattr2 hmx2 (by simp only [List.length_nil, Nat.zero_add]; exact hlt)
  have htr3 : w3.trace = w.trace ++ ([Call.calloc w.reply.1.toNat]
      ++ (List.zipWith (node_calls wait_attr w) (l.take (MAXIMUM_WAIT_OBJECTS / 2)) hs).flatten) := by
    rw [htr]
    exact List.append_assoc _ _ _
  have hattr3 : w3.attr w.reply.1.toNat = some wait_attr := by
    rw [hw3]
    exact hattr2
  have hev3 : w3.events = w.events := by
    rw [hw3]
    rfl
  have hmu3 : w3.mutexes = w.mutexes := by
    rw [hw3]
    rfl
  obtain ⟨k, hk⟩ : ∃ k, fuel = (l.take (MAXIMUM_WAIT_OBJECTS / 2)).length + k :=
    ⟨fuel - (l.take (MAXIMUM_WAIT_OBJECTS / 2)).length,
      (Nat.add_sub_cancel' (le_trans (List.take_sublist (MAXIMUM_WAIT_OBJECTS / 2) l).length_le hfuel)).symm⟩
  have hloopk := hloop k
  rw [← hk] at hloopk
  simp only [List.nil_append, List.length_nil] at hloopk
  by_cases hcap : l.length ≤ MAXIMUM_WAIT_OBJECTS / 2
  · have hdrop : l.drop (MAXIMUM_WAIT_OBJECTS / 2) = [] := List.drop_eq_nil_of_le hcap
    rw [hdrop] at hloopk
    simp only [List.headD_nil, do_pth_wait_loop_null] at hloopk
    have hattr4 : (free_helper_threads (WaitForMultipleObjects w3 hs).2 hs
        (recorded_positions 0 ((l.take (MAXIMUM_WAIT_OBJECTS / 2)).map
          (w.with_wait_attr w.reply.1.toNat).kind))
        (recorded_positions 0 ((l.take (MAXIMUM_WAIT_OBJECTS / 2)).map
          (w.with_wait_attr w.reply.1.toNat).kind)).length).attr w.reply.1.toNat = some wait_attr := by
      rw [free_helper_threads_eq]
      exact hattr3
    refine ⟨hs, w3.reply.1.toNat, if w3.reply.1.toNat ≠ WAIT_TIMEOUT then 1 else 0,
      (free_helper_threads (WaitForMultipleObjects w3 hs).2 hs
        (recorded_positions 0 ((l.take (MAXIMUM_WAIT_OBJECTS / 2)).map
          (w.with_wait_attr w.reply.1.toNat).kind))
        (recorded_positions 0 ((l.take (MAXIMUM_WAIT_OBJECTS / 2)).map
          (w.with_wait_attr w.reply.1.toNat).kind)).length).freeAttr w.reply.1.toNat,
      ?_, hl, hfa, ?_, ?_, ?_, ?_⟩
    · simp only [do_pth_wait, hne, if_false, hset1, hnew, hset2, hcount, hloopk,
        pth_attr_destroy_ok _ _ _ hattr4 rfl hA]
      unfold WaitForMultipleObjects
      split <;> rfl
    · rw [free_helper_threads_eq]
      simp only [World.freeAttr, WaitForMultipleObjects, World.log, World.reply, htr3, hcap,
        if_true, List.append_assoc]
      rfl
    · have : ¬ (MAXIMUM_WAIT_OBJECTS / 2 < l.length) := by omega
      simp only [this, if_false]
    · rw [free_helper_threads_eq]
      exact hev3
    · rw [free_helper_threads_eq]
      exact hmu3
  · have hlen : MAXIMUM_WAIT_OBJECTS / 2 < l.length := by omega
    have htake : (l.take (MAXIMUM_WAIT_OBJECTS / 2)).length = MAXIMUM_WAIT_OBJECTS / 2 := by
      rw [List.length_take]
      exact Nat.min_eq_left (le_of_lt hlen)
    obtain ⟨q, rest, hdrop⟩ : ∃ q rest, l.drop (MAXIMUM_WAIT_OBJECTS / 2) = q :: rest := by
      cases hd : l.drop (MAXIMUM_WAIT_OBJECTS / 2) with
      | nil =>
        have := List.drop_eq_nil_iff.1 hd
        omega
      | cons q rest => exact ⟨q, rest, rfl⟩
    have hq : q ≠ 0 := by
      have h1 : IsChain w ev (l.take (MAXIMUM_WAIT_OBJECTS / 2) ++ q :: rest) := by
        rw [← hdrop, List.take_append_drop]
        exact hch
      exact ((IsChain.cons_iff w q q rest).1 (IsChain.suffix w _ q rest ev h1)).2.1
    obtain ⟨k1, rfl⟩ : ∃ k1, k = k1 + 1 := ⟨k - 1, by omega⟩
    have hattr4 : (free_helper_threads w3 hs
        (recorded_positions 0 ((l.take (MAXIMUM_WAIT_OBJECTS / 2)).map
          (w.with_wait_attr w.reply.1.toNat).kind))
        (recorded_positions 0 ((l.take (MAXIMUM_WAIT_OBJECTS / 2)).map
          (w.with_wait_attr w.reply.1.toNat).kind)).length).attr w.reply.1.toNat = some wait_attr := by
      rw [free_helper_threads_eq]
      exact hattr3
    have hover : hs.length + 1 > MAXIMUM_WAIT_OBJECTS / 2 := by omega
    rw [hdrop] at hloopk
    simp only [List.headD_cons, do_pth_wait_loop, hq, if_false, hover, if_true,
      pth_attr_destroy_ok _ _ _ hattr4 rfl hA] at hloopk
    refine ⟨hs, 0, -1,
      (free_helper_threads w3 hs
        (recorded_positions 0 ((l.take (MAXIMUM_WAIT_OBJECTS / 2)).map
          (w.with_wait_attr w.reply.1.toNat).kind))
        (recorded_positions 0 ((l.take (MAXIMUM_WAIT_OBJECTS / 2)).map
          (w.with_wait_attr w.reply.1.toNat).kind)).length).freeAttr w.reply.1.toNat,
      ?_, hl, hfa, ?_, ?_, ?_, ?_⟩
    · simp only [do_pth_wait, hne, if_false, hnew, hset1, hset2, hcount, hloopk]
    · rw [free_helper_threads_eq]
      simp only [World.freeAttr, htr3, hcap, if_false, List.append_assoc, List.append_nil]
      rfl
    · simp only [hlen, if_true]
    · rw [free_helper_threads_eq]
      exact hev3
    · rw [free_helper_threads_eq]
      exact hmu3

/-! ## Reading a trace -/

theorem closed_handles_append : ∀ (s t : List Call),
    closed_handles (s ++ t) = closed_handles s ++ closed_handles t
  | [], t => rfl
  | c :: s, t => by
    have ih := closed_handles_append s t
    cases c <;> simp [closed_handles, ih]

theorem spawned_threads_append : ∀ (s t : List Call),
    spawned_threads (s ++ t) = spawned_threads s ++ spawned_threads t
  | [], t => rfl
  | c :: s, t => by
    have ih := spawned_threads_append s t
    cases c <;> simp [spawned_threads, ih]

theorem wait_calls_append : ∀ (s t : List Call),
    wait_calls (s ++ t) = wait_calls s ++ wait_calls t
  | [], t => rfl
  | c :: s, t => by
    have ih := wait_calls_append s t
    cases c <;> simp [wait_calls, ih]

theorem freed_append : ∀ (s t : List Call), freed (s ++ t) = freed s ++ freed t
  | [], t => rfl
  | c :: s, t => by
    have ih := freed_append s t
    cases c <;> simp [freed, ih]

theorem closed_handles_map_close (f : Nat → HANDLE) : ∀ (idx : List Nat),
    closed_handles (idx.map (fun i => Call.CloseHandle (f i))) = idx.map f
  | [] => rfl
  | i :: idx => by simp [closed_handles, closed_handles_map_close f idx]

theorem spawned_threads_map_close (f : Nat → HANDLE) : ∀ (idx : List Nat),
    spawned_threads (idx.map (fun i => Call.CloseHandle (f i))) = []
  | [] => rfl
  | i :: idx => by simp [spawned_threads, spawned_threads_map_close f idx]

theorem wait_calls_map_close (f : Nat → HANDLE) : ∀ (idx : List Nat),
    wait_calls (idx.map (fun i => Call.CloseHandle (f i))) = []
  | [] => rfl
  | i :: idx => by simp [wait_calls, wait_calls_map_close f idx]

/-- The calls made for the nodes: no close, no wait, one spawn per node with a
helper thread. -/
theorem node_calls_projections (a : pth_attr_s) (w : World) : ∀ (l : List Ptr) (hs : List HANDLE),
    closed_handles (List.zipWith (node_calls a w) l hs).flatten = [] ∧
    wait_calls (List.zipWith (node_calls a w) l hs).flatten = [] ∧
    spawned_threads (List.zipWith (node_calls a w) l hs).flatten
      = batch_handles w spawns_thread l hs
  | [], _ => by simp [closed_handles, wait_calls, spawned_threads, batch_handles]
  | _ :: _, [] => by simp [closed_handles, wait_calls, spawned_threads, batch_handles]
  | p :: l, h :: hs => by
    obtain ⟨h1, h2, h3⟩ := node_calls_projections a w l hs
    simp only [List.zipWith_cons_cons, List.flatten_cons, closed_handles_append,
      wait_calls_append, spawned_threads_append, h1, h2, h3, List.append_nil]
    unfold batch_handles at h3 ⊢
    cases hk : w.kind p <;>
      simp [node_calls, hk, closed_handles, wait_calls, spawned_threads, spawns_thread,
        List.filter_cons]

/-- The handles read back through the recorded positions are those of the
recorded nodes, in order. -/
theorem recorded_positions_getD (w : World) : ∀ (l : List Ptr) (hs pre : List HANDLE),
    hs.length = l.length →
    (recorded_positions pre.length (l.map w.kind)).map (fun i => (pre ++ hs).getD i 0)
      = batch_handles w is_recorded l hs
  | [], _, _, _ => by simp [recorded_positions, batch_handles]
  | p :: l, [], _, hl => by simp at hl
  | p :: l, h :: hs, pre, hl => by
    have ih := recorded_positions_getD w l hs (pre ++ [h]) (by simpa using hl)
    simp only [List.length_append, List.length_cons, List.length_nil, Nat.zero_add,
      List.append_assoc, List.cons_append, List.nil_append] at ih
    unfold batch_handles at ih ⊢
    simp only [List.map_cons, recorded_positions, List.zip_cons_cons, List.filter_cons]
    split
    · simp only [List.map_cons, ih]
      congr 1
      rw [List.getD_append_right _ _ _ _ (le_refl _)]
      simp
    · exact ih

theorem forall₂_wait_handle_mono (w : World) (a : pth_attr_s) (t : List Call) :
    ∀ (l : List Ptr) (hs : List HANDLE),
    List.Forall₂ (fun p h => wait_handle w (node_calls a w p h) p h) l hs →
    (∀ c ∈ (List.zipWith (node_calls a w) l hs).flatten, c ∈ t) →
    List.Forall₂ (wait_handle w t) l hs
  | _, _, List.Forall₂.nil, _ => List.Forall₂.nil
  | p :: l, x :: hs, List.Forall₂.cons hpx hrest, hsub => by
    simp only [List.zipWith_cons_cons, List.flatten_cons, List.mem_append] at hsub
    exact List.Forall₂.cons
      (wait_handle_mono w _ t p x (fun c hc => hsub c (Or.inl hc)) hpx)
      (forall₂_wait_handle_mono w a t l hs hrest (fun c hc => hsub c (Or.inr hc)))

theorem reply_toNat_ne_zero (w : World) (halloc : 0 < w.replies.headD 0) : w.reply.1.toNat ≠ 0 := by
  intro h
  have h1 : w.replies.headD 0 ≤ 0 := Int.toNat_eq_zero.1 h
  omega

theorem IsChain.null (w : World) (l : List Ptr) (h : IsChain w 0 l) : l = [] := by
  cases l with
  | nil => rfl
  | cons q l =>
    rw [IsChain.cons_iff] at h
    exact (h.2.1 h.1.symm).elim

theorem IsChain.ne_nil (w : World) (p : Ptr) (l : List Ptr) (h : IsChain w p l) (hp : p ≠ 0) :
    l ≠ [] := by
  intro h0
  subst h0
  exact hp h

/-- Claim C6.  Let `l` be the chain of live event nodes that starts at `ev`,
every Mutex event of it referring to a live mutex, and let the allocation of
the attribute bag succeed.  With a step budget of at least the length of the
chain, `do_pth_wait` returns: the result is `-1` if and only if the chain has
more than `MAXIMUM_WAIT_OBJECTS / 2` nodes, and then `WaitForMultipleObjects`
is not called; for a non-empty chain of at most that many nodes
`WaitForMultipleObjects` is called exactly once, on a batch that holds exactly
one handle per node, in chain order: the node's own event object (tag `0`),
the signal event object (Signal), the lock of its mutex (Mutex), or the handle
of the helper thread started for this node (DescriptorReadable, Timer). -/
theorem do_pth_wait_capacity (w : World) (ev : Ptr) (l : List Ptr) (fuel : Nat)
    (hch : IsChain w ev l) (hfuel : l.length ≤ fuel) (hmx : mutexes_live w l)
    (halloc : 0 < w.replies.headD 0) :
    ∃ (rc : Int) (w1 : World) (t : List Call),
      do_pth_wait fuel w ev = Except.ok (rc, w1) ∧ w1.trace = w.trace ++ t ∧
      (rc = -1 ↔ MAXIMUM_WAIT_OBJECTS / 2 < l.length) ∧
      (MAXIMUM_WAIT_OBJECTS / 2 < l.length → wait_calls t = []) ∧
      (l ≠ [] → l.length ≤ MAXIMUM_WAIT_OBJECTS / 2 →
        ∃ hs, wait_calls t = [hs] ∧ List.Forall₂ (wait_handle w t) l hs) := by
  by_cases hne : ev = 0
  · subst hne
    have hl := IsChain.null w l hch
    subst hl
    refine ⟨0, w, [], by simp [do_pth_wait], by simp, ?_, ?_, ?_⟩
    · simp
    · simp
    · intro h
      exact (h rfl).elim
  · obtain ⟨hs, n, rc, w1, hrun, hlen, hfa, htr, hrc, _, _⟩ :=
      do_pth_wait_summary w ev l fuel hch hne hfuel hmx (reply_toNat_ne_zero w halloc)
    obtain ⟨_, hp2, _⟩ := node_calls_projections wait_attr w (l.take (MAXIMUM_WAIT_OBJECTS / 2)) hs
    refine ⟨rc, w1, _, hrun, htr, ?_, ?_, ?_⟩
    · rw [hrc]
      constructor
      · intro h
        by_contra hcap
        rw [if_neg hcap] at h
        split at h <;> omega
      · intro h
        rw [if_pos h]
    · intro hcap
      have hcap1 : ¬ l.length ≤ MAXIMUM_WAIT_OBJECTS / 2 := by omega
      simp [wait_calls_append, hp2, wait_calls_map_close, hcap1, wait_calls]
    · intro _ hcap
      have htake : l.take (MAXIMUM_WAIT_OBJECTS / 2) = l := List.take_of_length_le hcap
      rw [htake] at hfa hp2
      refine ⟨hs, ?_, ?_⟩
      · simp [wait_calls_append, hp2, wait_calls_map_close, hcap, wait_calls, htake]
      · apply forall₂_wait_handle_mono w wait_attr _ l hs hfa
        intro c hc
        rw [htake]
        simp only [List.mem_append]
        exact Or.inl (Or.inl (Or.inl (Or.inr hc)))

theorem wait_world_chain : IsChain wait_world 1 [1, 2, 3, 4, 5] := by
  simp [IsChain, wait_world]

theorem wait_world_mutexes : mutexes_live wait_world [1, 2, 3, 4, 5] := by
  intro p hp hk
  simp only [List.mem_cons, List.mem_singleton, List.not_mem_nil, or_false] at hp
  rcases hp with rfl | rfl | rfl | rfl | rfl <;>
    simp [World.kind, wait_world, World.lock_of, World.mutex] at hk ⊢

/-- The theorem `do_pth_wait_capacity` at `wait_world`, a chain of five events. -/
theorem do_pth_wait_capacity_witness :
    ∃ (rc : Int) (w1 : World) (t : List Call),
      do_pth_wait 5 wait_world 1 = Except.ok (rc, w1) ∧ w1.trace = wait_world.trace ++ t ∧
      (rc = -1 ↔ MAXIMUM_WAIT_OBJECTS / 2 < [1, 2, 3, 4, 5].length) ∧
      (MAXIMUM_WAIT_OBJECTS / 2 < [1, 2, 3, 4, 5].length → wait_calls t = []) ∧
      (([1, 2, 3, 4, 5] : List Ptr) ≠ [] → [1, 2, 3, 4, 5].length ≤ MAXIMUM_WAIT_OBJECTS / 2 →
        ∃ hs, wait_calls t = [hs] ∧ List.Forall₂ (wait_handle wait_world t) [1, 2, 3, 4, 5] hs) :=
  do_pth_wait_capacity wait_world 1 [1, 2, 3, 4, 5] 5 wait_world_chain (by decide)
    wait_world_mutexes (by decide)

/-- The run of `do_pth_wait` on `wait_world`, call by call. -/
theorem do_pth_wait_wait_world : ∃ w1, do_pth_wait 5 wait_world 1 = Except.ok (1, w1) ∧ w1.trace =
  [Call.calloc 100, Call.CreateThread 4096 thread_func.wait_fd_thread 3 51,
   Call.CreateThread 4096 thread_func.wait_timer_thread 4 52,
   Call.WaitForMultipleObjects [11, 40, 51, 52, 70] 0, Call.CloseHandle 51, Call.CloseHandle 52,
   Call.CloseHandle 70, Call.free 100] := ⟨_, rfl, rfl⟩

/-! ## Freeing events -/

theorem World.events_trace_trans {w w1 w2 : World}
    (h1 : w1 = { w with events := w1.events, trace := w1.trace })
    (h2 : w2 = { w1 with events := w2.events, trace := w2.trace }) :
    w2 = { w with events := w2.events, trace := w2.trace } := by
  rw [h1] at h2
  exact h2

/-- The loop of `do_pth_event_free` over a chain: each node has its handle
closed and is freed, in chain order. -/
theorem do_pth_event_free_all_chain : ∀ (l : List Ptr) (ev : Ptr) (w : World) (fuel : Nat),
    IsChain w ev l → l.length ≤ fuel →
    ∃ w1, do_pth_event_free_all fuel w ev = Except.ok w1 ∧
      w1.trace = w.trace
        ++ (l.map (fun p => [Call.CloseHandle (w.hd_of p), Call.free p])).flatten ∧
      (∀ p ∈ l, w1.events p = none) ∧ (∀ p, p ∉ l → w1.events p = w.events p) ∧
      w1 = { w with events := w1.events, trace := w1.trace }
  | [], ev, w, fuel, h, _ => by
    have h0 : ev = 0 := h
    refine ⟨w, ?_, by simp, by simp, fun _ _ => rfl, rfl⟩
    cases fuel <;> simp [do_pth_event_free_all, h0]
  | q :: l, ev, w, fuel, h, hf => by
    obtain ⟨k, rfl⟩ : ∃ k, fuel = k + 1 := ⟨fuel - 1, by simp at hf; omega⟩
    have hnd := IsChain.nodup w _ ev h
    rw [List.nodup_cons] at hnd
    rw [IsChain.cons_iff] at h
    obtain ⟨h1, h2, e, he, h3⟩ := h
    subst h1
    have hframe : ∀ x ∈ l, (((CloseHandle w e.hd).setEv ev { e with hd := 0 }).freeEv ev).events x
        = w.events x := by
      intro x hx
      have hxe : x ≠ ev := fun hxe => hnd.1 (hxe ▸ hx)
      simp [World.freeEv, World.setEv, CloseHandle, World.log, Function.update, hxe]
    obtain ⟨w1, hrun, htr, hgone, hkeep, hw1⟩ :=
      do_pth_event_free_all_chain l e.next
        (((CloseHandle w e.hd).setEv ev { e with hd := 0 }).freeEv ev) k
        (IsChain.frame w _ l e.next hframe h3) (by simp at hf; omega)
    refine ⟨w1, ?_, ?_, ?_, ?_, World.events_trace_trans rfl hw1⟩
    · simp only [do_pth_event_free_all, h2, if_false, World.ev, he]
      exact hrun
    · rw [htr]
      have hmap : l.map (fun p => [Call.CloseHandle
            ((((CloseHandle w e.hd).setEv ev { e with hd := 0 }).freeEv ev).hd_of p), Call.free p])
          = l.map (fun p => [Call.CloseHandle (w.hd_of p), Call.free p]) := by
        apply List.map_congr_left
        intro p hp
        simp only [World.hd_of, hframe p hp]
      rw [hmap]
      simp [World.freeEv, World.setEv, CloseHandle, World.log, World.hd_of, he]
    · intro p hp
      rcases List.mem_cons.1 hp with rfl | hp
      · rw [hkeep _ hnd.1]
        simp [World.freeEv]
      · exact hgone p hp
    · intro p hp
      simp only [List.mem_cons, not_or] at hp
      rw [hkeep p hp.2]
      simp [World.freeEv, World.setEv, CloseHandle, World.log, Function.update, hp.1]

theorem closed_handles_close_free (f : Ptr → HANDLE) : ∀ (l : List Ptr),
    closed_handles (l.map (fun p => [Call.CloseHandle (f p), Call.free p])).flatten = l.map f ∧
    freed (l.map (fun p => [Call.CloseHandle (f p), Call.free p])).flatten = l
  | [] => by simp [closed_handles, freed]
  | p :: l => by
    obtain ⟨h1, h2⟩ := closed_handles_close_free f l
    simp [closed_handles, freed, h1, h2]

/-- Claim C5.  Let `l` be the chain of `n` live nodes that starts at `ev`
(`n = 0` when `ev` is `NULL`).  With a step budget of at least `n`,
`do_pth_event_free (ev, PTH_FREE_ALL)` terminates and returns `0`; the calls it
makes are, node by node in chain order, `CloseHandle` on the handle of the node
followed by `free` of the node.  So exactly `n` handles are closed, the one of
each node once and no other, and each node is freed exactly once (the chain
has no repeated node); the nodes are gone from the heap afterwards and nothing
else changes. -/
theorem do_pth_event_free_all_releases (w : World) (ev : Ptr) (l : List Ptr) (fuel : Nat)
    (hch : IsChain w ev l) (hfuel : l.length ≤ fuel) :
    ∃ (w1 : World) (t : List Call),
      do_pth_event_free fuel w ev pth_free_mode.PTH_FREE_ALL = Except.ok (0, w1) ∧
      w1.trace = w.trace ++ t ∧
      t = (l.map (fun p => [Call.CloseHandle (w.hd_of p), Call.free p])).flatten ∧
      closed_handles t = l.map w.hd_of ∧ (closed_handles t).length = l.length ∧
      freed t = l ∧ l.Nodup ∧
      (∀ p ∈ l, w1.events p = none) ∧ (∀ p, p ∉ l → w1.events p = w.events p) ∧
      w1 = { w with events := w1.events, trace := w1.trace } := by
  obtain ⟨w1, hrun, htr, hgone, hkeep, hw1⟩ := do_pth_event_free_all_chain l ev w fuel hch hfuel
  obtain ⟨hc, hfr⟩ := closed_handles_close_free w.hd_of l
  refine ⟨w1, _, ?_, htr, rfl, hc, ?_, hfr, IsChain.nodup w l ev hch, hgone, hkeep, hw1⟩
  · simp [do_pth_event_free, hrun]
  · rw [hc, List.length_map]

/-- The theorem `do_pth_event_free_all_releases` at the chain `1, 2` of `concat_world`. -/
theorem do_pth_event_free_all_releases_witness :
    ∃ (w1 : World) (t : List Call),
      do_pth_event_free 2 concat_world 1 pth_free_mode.PTH_FREE_ALL = Except.ok (0, w1) ∧
      w1.trace = concat_world.trace ++ t ∧
      t = (([1, 2] : List Ptr).map
        (fun p => [Call.CloseHandle (concat_world.hd_of p), Call.free p])).flatten ∧
      closed_handles t = ([1, 2] : List Ptr).map concat_world.hd_of ∧
      (closed_handles t).length = ([1, 2] : List Ptr).length ∧
      freed t = [1, 2] ∧ ([1, 2] : List Ptr).Nodup ∧
      (∀ p ∈ ([1, 2] : List Ptr), w1.events p = none) ∧
      (∀ p, p ∉ ([1, 2] : List Ptr) → w1.events p = concat_world.events p) ∧
      w1 = { concat_world with events := w1.events, trace := w1.trace } :=
  do_pth_event_free_all_releases concat_world 1 [1, 2] 2 (by simp [IsChain, concat_world])
    (by decide)

/-! ## Runs on which the specification and the code differ -/

theorem IsChain.of_chain_of (w : World) : ∀ (fuel : Nat) (p : Ptr) (l : List Ptr),
    chain_of fuel w p = some l → IsChain w p l
  | 0, p, l, h => by
    unfold chain_of at h
    split at h
    · next h0 =>
      cases h
      exact h0
    · cases h
  | fuel + 1, p, l, h => by
    unfold chain_of at h
    split at h
    · next h0 =>
      cases h
      exact h0
    · next h0 =>
      cases he : w.events p with
      | none => simp [he] at h
      | some e =>
        simp only [he, Option.map_eq_some'] at h
        obtain ⟨l1, h1, rfl⟩ := h
        rw [IsChain.cons_iff]
        exact ⟨rfl, h0, e, he, IsChain.of_chain_of w fuel e.next l1 h1⟩

/-- Claim C1 fails on the code.  The Timer event that `pth_sleep (5)` builds is
waited for: `do_pth_wait` returns `1` (an event fired), and right after the
return `do_pth_event_occurred` on that sole member returns `0`, leaving the
state as it is.  The same holds for a set whose sole member is a Mutex event:
`do_pth_event_occurred` has no case for either tag. -/
theorem do_pth_wait_fired_none_occurred :
    (∃ w1, do_pth_wait 1 (do_pth_event sleep_world
          [pth_spec_bit.PTH_EVENT_TIME, pth_spec_bit.PTH_MODE_STATIC]
          { tv := pth_timeout 5 0 }).2 1 = Except.ok (1, w1) ∧
        w1.kind 1 = pth_event_type.PTH_EVENT_TIME ∧ chain_of 1 w1 1 = some [1] ∧
        do_pth_event_occurred w1 1 = Except.ok (0, w1)) ∧
    (∃ w1, do_pth_wait 1 mutex_event_world 1 = Except.ok (1, w1) ∧
        w1.kind 1 = pth_event_type.PTH_EVENT_MUTEX ∧ chain_of 1 w1 1 = some [1] ∧
        do_pth_event_occurred w1 1 = Except.ok (0, w1)) :=
  ⟨⟨_, rfl, rfl, rfl, rfl⟩, ⟨_, rfl, rfl, rfl, rfl⟩⟩

/-- Claim C3 fails on the code.  `pth_event_isolate` returns `NULL` and leaves
the state untouched, whatever it is given.  On the chains `1 → 2` and `4 → 5`:
after `pth_event_concat (1, 4, NULL)` the call `pth_event_isolate (1)` returns
the absent set, and the chain reachable from `1` is still `1, 2, 4, 5`, not
the original `1, 2`. -/
theorem pth_event_isolate_splits_nothing :
    (∀ (w : World) (ev : Ptr), pth_event_isolate w ev = Except.ok (0, w)) ∧
    chain_of 5 concat_world 1 = some [1, 2] ∧ chain_of 5 concat_world 4 = some [4, 5] ∧
    ∃ w1, pth_event_concat 5 concat_world 1 [4] = Except.ok (1, w1) ∧
      pth_event_isolate w1 1 = Except.ok (0, w1) ∧
      chain_of 5 w1 1 = some [1, 2, 4, 5] ∧ ¬ IsChain w1 1 [1, 2] := by
  refine ⟨?_, rfl, rfl, _, rfl, rfl, rfl, ?_⟩
  · intro w ev
    unfold pth_event_isolate
    split <;> rfl
  · intro h
    have h1 := IsChain.unique _ _ _ 1 h (IsChain.of_chain_of _ 5 1 [1, 2, 4, 5] rfl)
    simp at h1

/-- Claim C4 fails on the code.  In the chain `1, 2, 3` that the factory and
`pth_event_concat` build, every `prev` member is `NULL`, and
`do_pth_event_free (x, PTH_FREE_THIS)` stops on the dereference of `ev->prev`
for the head, for the middle node and for the tail alike. -/
theorem do_pth_event_free_this_faults :
    chain_of 3 built_chain_world 1 = some [1, 2, 3] ∧
    (∀ x ∈ ([1, 2, 3] : List Ptr), (built_chain_world.events x).map pth_event_s.prev = some 0) ∧
    (∀ x ∈ ([1, 2, 3] : List Ptr),
      do_pth_event_free 3 built_chain_world x pth_free_mode.PTH_FREE_THIS
        = Except.error Stop.fault) := by
  refine ⟨rfl, ?_, ?_⟩ <;>
  · intro x hx
    simp only [List.mem_cons, List.mem_singleton, List.not_mem_nil, or_false] at hx
    rcases hx with rfl | rfl | rfl <;> rfl

/-- Claim C8 fails on the code.  Whatever the values of the state constants,
on an initialised mutex whose state word already holds the locked bit,
`pth_mutex_acquire` with `tryonly = 1` returns `0`, the success result; the
mutex object is left as it was. -/
theorem pth_mutex_acquire_tryonly_succeeds (PTH_MUTEX_INITIALIZED PTH_MUTEX_LOCKED : Nat) :
    ∃ w1, pth_mutex_acquire PTH_MUTEX_LOCKED
        (mutex_world (PTH_MUTEX_INITIALIZED ||| PTH_MUTEX_LOCKED)) 9 1 0 = Except.ok (0, w1) ∧
      w1.mutex 9 = some { mx := 70, mx_state := PTH_MUTEX_INITIALIZED ||| PTH_MUTEX_LOCKED } := by
  refine ⟨_, rfl, ?_⟩
  simp [leave_pth, enter_pth, World.log, World.setMutex, World.mutex, mutex_world,
    Nat.lor_assoc]

/-- Claim C9 fails on the code.  A mutex is initialised at `9` with the lock
handle `70`; `pth_mutex_release` then closes that handle, frees the mutex
object and returns `0`, and a following `pth_mutex_acquire` on the same
address dereferences freed storage. -/
theorem pth_mutex_release_destroys (PTH_MUTEX_INITIALIZED : Nat) :
    ∃ w1 w2, pth_mutex_init PTH_MUTEX_INITIALIZED fresh_mutex_world 9 = Except.ok (0, w1) ∧
      w1.mutex 9 = some { mx := 70, mx_state := PTH_MUTEX_INITIALIZED } ∧
      pth_mutex_release w1 9 = Except.ok (0, w2) ∧
      closed_handles w2.trace = [70] ∧ freed w2.trace = [9] ∧ w2.mutex 9 = none ∧
      ∀ (PTH_MUTEX_LOCKED : Nat) (tryonly : Int) (ev_extra : Ptr),
        pth_mutex_acquire PTH_MUTEX_LOCKED w2 9 tryonly ev_extra = Except.error Stop.fault :=
  ⟨_, _, rfl, rfl, rfl, rfl, rfl, rfl, fun _ _ _ => rfl⟩

/-- Claim C10 fails on the code.  On a socket that was in non-blocking mode,
`pth_accept_ev` accepts a connection at once and returns with the socket in
blocking mode.  On a socket that was in blocking mode, when `accept` would
block and the internal event cannot be created, `pth_accept_ev` returns `-1`
with the socket left in non-blocking mode.  In both runs the first switch to
non-blocking mode succeeded. -/
theorem pth_accept_ev_mode_not_restored :
    (accept_nonblocking_world.nonblocking 6 = true ∧
      ∃ w1, pth_accept_ev 1 1 accept_nonblocking_world 6 0 = Except.ok (8, w1) ∧
        w1.nonblocking 6 = false) ∧
    (accept_no_memory_world.nonblocking 6 = false ∧
      ∃ w1, pth_accept_ev 1 1 accept_no_memory_world 6 0 = Except.ok (-1, w1) ∧
        w1.nonblocking 6 = true) :=
  ⟨⟨rfl, _, rfl, rfl⟩, ⟨rfl, _, rfl, rfl⟩⟩

/-- `do_pth_event_occurred` has no case for Signal events that can fire (the
test `sigpresent` is always `0`), nor any case for Timer and Mutex events: on a
live node with one of these tags it returns `0` and changes nothing. -/
theorem do_pth_event_occurred_no_case (w : World) (ev : Ptr) (e : pth_event_s)
    (he : w.ev ev = some e) (h0 : e.u_type ≠ pth_event_type.zero)
    (hfd : e.u_type ≠ pth_event_type.PTH_EVENT_FD) :
    do_pth_event_occurred w ev = Except.ok (0, w) := by
  have hev : ev ≠ 0 := by
    intro h
    simp [World.ev, h] at he
  unfold do_pth_event_occurred
  simp only [hev, if_false, he]
  cases hk : e.u_type <;> simp_all [sigpresent]

/-- The branch `PTH_FREE_THIS` of `do_pth_event_free` dereferences `ev->prev`
unguarded: on every node whose `prev` member is `NULL` it stops there. -/
theorem do_pth_event_free_this_null_prev (fuel : Nat) (w : World) (ev : Ptr) (e : pth_event_s)
    (he : w.ev ev = some e) (hprev : e.prev = 0) :
    do_pth_event_free fuel w ev pth_free_mode.PTH_FREE_THIS = Except.error Stop.fault := by
  have hp : w.ev e.prev = none := by
    simp [World.ev, hprev]
  simp only [do_pth_event_free, do_pth_event_free_this, he, hp]

/-- `pth_mutex_acquire` returns `0` on every live mutex that has a native lock,
whatever `tryonly` and the state word are. -/
theorem pth_mutex_acquire_always_succeeds (PTH_MUTEX_LOCKED : Nat) (w : World) (hd : Ptr)
    (m : pth_mutex_t) (tryonly : Int) (ev_extra : Ptr) (hm : w.mutex hd = some m)
    (hmx : m.mx ≠ 0) :
    ∃ w1, pth_mutex_acquire PTH_MUTEX_LOCKED w hd tryonly ev_extra = Except.ok (0, w1) := by
  have hhd : hd ≠ 0 := by
    intro h
    simp [World.mutex, h] at hm
  have hm1 : (enter_pth w).mutex hd = some m := hm
  refine ⟨leave_pth ((enter_pth w).setMutex hd
    { m with mx_state := m.mx_state ||| PTH_MUTEX_LOCKED }), ?_⟩
  simp [pth_mutex_acquire, hhd, hm1, hmx]

/-! ## Polling an event -/

/-- Claim C11 fails on the code.  The Signal event at `1` asks for a set that
holds the value `2` of the pending-signal slot, and the notification object
is signalled; `do_pth_event_occurred` returns `0` and leaves the state as it
is: the output field still holds `0` and the slot still holds `2`. -/
theorem do_pth_event_occurred_signal_never :
    (signal_world.sigsets 20).map (fun ss => ss.has signal_world.pth_signo) = some true ∧
    signal_world.signaled signal_world.pth_signo_ev = true ∧
    do_pth_event_occurred signal_world 1 = Except.ok (0, signal_world) ∧
    signal_world.ints 30 = some 0 ∧ signal_world.pth_signo = 2 :=
  ⟨by decide, rfl, rfl, rfl, rfl⟩

/-- The event the factory returns has an auto-reset event object that is not
signalled. -/
theorem do_pth_event_body_auto_reset (w : World) (spec : List pth_spec_bit) (arg : pth_event_args)
    (h : (do_pth_event_body w spec arg).1 ≠ 0) :
    ∃ e, (do_pth_event_body w spec arg).2.ev (do_pth_event_body w spec arg).1 = some e ∧
      e.hd ≠ 0 ∧ e.u_type = (do_pth_event_fill spec arg).1.u_type ∧
      (do_pth_event_body w spec arg).2.manual_reset e.hd = false ∧
      (do_pth_event_body w spec arg).2.signaled e.hd = false := by
  unfold do_pth_event_body at h ⊢
  by_cases h1 : w.reply.1.toNat = 0
  · simp [h1] at h
  · by_cases h2 : ((if (do_pth_event_fill spec arg).2 = true
        then (w.reply.2.log (Call.calloc w.reply.1.toNat)).log Call.SetConsoleCtrlHandler
        else w.reply.2.log (Call.calloc w.reply.1.toNat)).reply.1.toNat) = 0
    · simp [h1, h2] at h
    · simp [h1, h2, World.ev, World.setEv]

/-- Claim C12 fails on the code.  A Generic event and a DescriptorReadable
event made by the factory are signalled once; the first poll returns `1` and
resets the event object, and the next poll, with no signal in between,
returns `0`. -/
theorem do_pth_event_occurred_consumes :
    (generic_event_world.kind 1 = pth_event_type.zero ∧
      generic_event_world.signaled (generic_event_world.hd_of 1) = true ∧
      ∃ w1 w2, do_pth_event_occurred generic_event_world 1 = Except.ok (1, w1) ∧
        w1.signaled (generic_event_world.hd_of 1) = false ∧
        do_pth_event_occurred w1 1 = Except.ok (0, w2)) ∧
    (fd_event_world.kind 1 = pth_event_type.PTH_EVENT_FD ∧
      fd_event_world.signaled (fd_event_world.hd_of 1) = true ∧
      ∃ w1 w2, do_pth_event_occurred fd_event_world 1 = Except.ok (1, w1) ∧
        w1.signaled (fd_event_world.hd_of 1) = false ∧
        do_pth_event_occurred w1 1 = Except.ok (0, w2)) :=
  ⟨⟨rfl, rfl, _, _, rfl, rfl, rfl⟩, ⟨rfl, rfl, _, _, rfl, rfl, rfl⟩⟩

/-- The poll of a live Generic or DescriptorReadable event is the zero-time-out
wait on its event object. -/
theorem do_pth_event_occurred_poll (w : World) (ev : Ptr) (e : pth_event_s)
    (he : w.ev ev = some e)
    (hk : e.u_type = pth_event_type.zero ∨ e.u_type = pth_event_type.PTH_EVENT_FD) :
    do_pth_event_occurred w ev =
      Except.ok (if (WaitForSingleObject w e.hd).1 = WAIT_OBJECT_0 then 1 else 0,
        (WaitForSingleObject w e.hd).2) := by
  have hev : ev ≠ 0 := by
    intro h
    simp [World.ev, h] at he
  unfold do_pth_event_occurred
  simp only [hev, if_false, he]
  rcases hk with hk | hk <;> rw [hk] <;> simp only <;> split <;> rfl

/-- Claim C12, as amended.  Let the native handle of a live Generic or
DescriptorReadable event be an auto-reset event object, as the factory
creates it.  If the object is signalled, `do_pth_event_occurred` returns `1`
and resets it, so that the next poll, with no signal in between, returns `0`;
if the object is not signalled, the poll returns `0`, leaves the signalled
states as they are, and the next poll returns `0` again.  The polls change
neither the event nodes nor the kinds of the event objects. -/
theorem do_pth_event_occurred_auto_reset (w : World) (ev : Ptr) (e : pth_event_s)
    (he : w.ev ev = some e)
    (hk : e.u_type = pth_event_type.zero ∨ e.u_type = pth_event_type.PTH_EVENT_FD)
    (hauto : w.manual_reset e.hd = false) :
    (w.signaled e.hd = true →
      ∃ w1 w2, do_pth_event_occurred w ev = Except.ok (1, w1) ∧ w1.signaled e.hd = false ∧
        do_pth_event_occurred w1 ev = Except.ok (0, w2) ∧ w2.signaled = w1.signaled) ∧
    (w.signaled e.hd = false →
      ∃ w1 w2, do_pth_event_occurred w ev = Except.ok (0, w1) ∧ w1.signaled = w.signaled ∧
        do_pth_event_occurred w1 ev = Except.ok (0, w2) ∧ w2.signaled = w.signaled) ∧
    (∀ rc w1, do_pth_event_occurred w ev = Except.ok (rc, w1) →
      w1.events = w.events ∧ w1.manual_reset = w.manual_reset ∧
      (rc = 1 ↔ w.signaled e.hd = true)) := by
  have hpoll := do_pth_event_occurred_poll w ev e he hk
  refine ⟨?_, ?_, ?_⟩
  · intro hs
    have h1 : WaitForSingleObject w e.hd = (WAIT_OBJECT_0,
        { w with signaled := Function.update w.signaled e.hd false,
                 trace := w.trace ++ [Call.WaitForSingleObject e.hd WAIT_OBJECT_0] }) := by
      simp [WaitForSingleObject, hs, hauto]
    rw [h1] at hpoll
    simp only [if_true] at hpoll
    have he1 : World.ev
        { w with
          signaled := Function.update w.signaled e.hd false,
          trace := w.trace ++ [Call.WaitForSingleObject e.hd WAIT_OBJECT_0] } ev = some e := he
    have h2 : WaitForSingleObject
        { w with
          signaled := Function.update w.signaled e.hd false,
          trace := w.trace ++ [Call.WaitForSingleObject e.hd WAIT_OBJECT_0] } e.hd =
        (WAIT_TIMEOUT, World.log
          { w with
            signaled := Function.update w.signaled e.hd false,
            trace := w.trace ++ [Call.WaitForSingleObject e.hd WAIT_OBJECT_0] }
          (Call.WaitForSingleObject e.hd WAIT_TIMEOUT)) := by
      simp [WaitForSingleObject]
    have hpoll2 := do_pth_event_occurred_poll _ ev e he1 hk
    rw [h2] at hpoll2
    exact ⟨_, _, hpoll, by simp, hpoll2, rfl⟩
  · intro hs
    have h1 : WaitForSingleObject w e.hd =
        (WAIT_TIMEOUT, w.log (Call.WaitForSingleObject e.hd WAIT_TIMEOUT)) := by
      simp [WaitForSingleObject, hs]
    rw [h1] at hpoll
    have h2 : WaitForSingleObject (w.log (Call.WaitForSingleObject e.hd WAIT_TIMEOUT)) e.hd =
        (WAIT_TIMEOUT, (w.log (Call.WaitForSingleObject e.hd WAIT_TIMEOUT)).log
          (Call.WaitForSingleObject e.hd WAIT_TIMEOUT)) := by
      simp [WaitForSingleObject, hs, World.log]
    have he1 : (w.log (Call.WaitForSingleObject e.hd WAIT_TIMEOUT)).ev ev = some e := he
    have hpoll2 := do_pth_event_occurred_poll _ ev e he1 hk
    rw [h2] at hpoll2
    exact ⟨_, _, hpoll, rfl, hpoll2, rfl⟩
  · intro rc w1 hrun
    rw [hpoll] at hrun
    cases hrun
    cases hs : w.signaled e.hd
    · simp [WaitForSingleObject, hs, World.log, WAIT_OBJECT_0, WAIT_TIMEOUT]
    · simp [WaitForSingleObject, hs, hauto, WAIT_OBJECT_0]

/-- The theorem `do_pth_event_occurred_auto_reset` at the Generic event of
`generic_event_world`, whose event object `7` is signalled. -/
theorem do_pth_event_occurred_auto_reset_witness :
    (generic_event_world.signaled 7 = true →
      ∃ w1 w2, do_pth_event_occurred generic_event_world 1 = Except.ok (1, w1) ∧
        w1.signaled 7 = false ∧
        do_pth_event_occurred w1 1 = Except.ok (0, w2) ∧ w2.signaled = w1.signaled) ∧
    (generic_event_world.signaled 7 = false →
      ∃ w1 w2, do_pth_event_occurred generic_event_world 1 = Except.ok (0, w1) ∧
        w1.signaled = generic_event_world.signaled ∧
        do_pth_event_occurred w1 1 = Except.ok (0, w2) ∧
        w2.signaled = generic_event_world.signaled) ∧
    (∀ rc w1, do_pth_event_occurred generic_event_world 1 = Except.ok (rc, w1) →
      w1.events = generic_event_world.events ∧
      w1.manual_reset = generic_event_world.manual_reset ∧
      (rc = 1 ↔ generic_event_world.signaled 7 = true)) :=
  do_pth_event_occurred_auto_reset generic_event_world 1 { hd := 7 } rfl (Or.inl rfl) rfl

/-! ## Reading and writing -/

theorem socket_results_append : ∀ (s t : List Call),
    socket_results (s ++ t) = socket_results s ++ socket_results t
  | [], t => rfl
  | c :: s, t => by
    have ih := socket_results_append s t
    cases c <;> simp [socket_results, ih]

theorem file_results_append : ∀ (s t : List Call),
    file_results (s ++ t) = file_results s ++ file_results t
  | [], t => rfl
  | c :: s, t => by
    have ih := file_results_append s t
    cases c <;> simp [file_results, ih]

theorem recv_trace (w : World) (fd : Int) (size : Nat) :
    (recv w fd size).2.trace = w.trace ++ [Call.recv fd size (recv w fd size).1] := by
  unfold recv
  by_cases h : w.reply.1 = -1
  · simp only [h, if_true]
    rfl
  · simp only [h, if_false]
    rfl

theorem send_trace (w : World) (fd : Int) (size : Nat) :
    (send w fd size).2.trace = w.trace ++ [Call.send fd size (send w fd size).1] := by
  unfold send
  by_cases h : w.reply.1 = -1
  · simp only [h, if_true]
    rfl
  · simp only [h, if_false]
    rfl

theorem ReadFile_trace (w : World) (fd : Int) (size : Nat) :
    (ReadFile w fd size).2.trace
        = w.trace ++ [Call.ReadFile fd size (ReadFile w fd size).1.1 (ReadFile w fd size).1.2] ∧
      (ReadFile w fd size).2.last_error = w.last_error := by
  unfold ReadFile
  by_cases h : w.reply.1 = 0
  · simp only [h, if_true]
    exact ⟨rfl, rfl⟩
  · simp only [h, if_false]
    exact ⟨rfl, rfl⟩

theorem WriteFile_trace (w : World) (fd : Int) (size : Nat) :
    (WriteFile w fd size).2.trace
        = w.trace ++ [Call.WriteFile fd size (WriteFile w fd size).1.1 (WriteFile w fd size).1.2] ∧
      (WriteFile w fd size).2.last_error = w.last_error := by
  unfold WriteFile
  by_cases h : w.reply.1 = 0
  · simp only [h, if_true]
    exact ⟨rfl, rfl⟩
  · simp only [h, if_false]
    exact ⟨rfl, rfl⟩

theorem leave_pth_trace (w : World) :
    (leave_pth w).trace = w.trace ++ [Call.EnterCriticalSection] := rfl

theorem enter_pth_trace (w : World) :
    (enter_pth w).trace = w.trace ++ [Call.LeaveCriticalSection] := rfl

theorem leave_pth_last_error (w : World) : (leave_pth w).last_error = w.last_error := rfl

/-- Three runs of `pth_read` on the descriptor `6`: the socket read succeeds
with `12` bytes; it fails with `WSAEWOULDBLOCK`; it fails with `WSAENOTSOCK` and
`ReadFile` then transfers `5` bytes. -/
theorem pth_read_runs :
    (pth_read { replies := [12] } 6 100).1 = 12 ∧
    (pth_read { replies := [-1, 10035] } 6 100).1 = -1 ∧
    (pth_read { replies := [-1, 10035] } 6 100).2.trace =
      [Call.LeaveCriticalSection, Call.recv 6 100 (-1), Call.EnterCriticalSection] ∧
    (pth_read { replies := [-1, 10038, 1, 5] } 6 100).1 = 5 ∧
    (pth_read { replies := [-1, 10038, 1, 5] } 6 100).2.trace =
      [Call.LeaveCriticalSection, Call.recv 6 100 (-1), Call.ReadFile 6 100 1 5,
       Call.EnterCriticalSection] ∧
    (pth_read { replies := [-1, 10038, 0] } 6 100).1 = -1 :=
  ⟨rfl, rfl, rfl, by decide, by decide, rfl⟩

/-! ## Attributes and the thread wrapper -/

/-- Claim C14.  For every state, every attribute bag address and every field
identifier other than `PTH_ATTR_JOINABLE`, `PTH_ATTR_STACK_SIZE` and
`PTH_ATTR_NAME`, `pth_attr_set` returns `-1` and leaves the whole state, hence
the flags, the stack size and the name of the bag, as it was. -/
theorem pth_attr_set_unknown_field (w : World) (hd : Ptr) (field : pth_attr_field) (val : Int)
    (str : Option String)
    (hj : field ≠ pth_attr_field.PTH_ATTR_JOINABLE)
    (hs : field ≠ pth_attr_field.PTH_ATTR_STACK_SIZE)
    (hn : field ≠ pth_attr_field.PTH_ATTR_NAME) :
    ∃ w1, pth_attr_set w hd field val str = Except.ok (-1, w1) ∧ w1 = w ∧
      w1.attr hd = w.attr hd := by
  cases field with
  | PTH_ATTR_JOINABLE => exact (hj rfl).elim
  | PTH_ATTR_STACK_SIZE => exact (hs rfl).elim
  | PTH_ATTR_NAME => exact (hn rfl).elim
  | other n => exact ⟨w, rfl, rfl, rfl⟩

/-- The theorem `pth_attr_set_unknown_field` at the bag of `spawn_world` and
the field identifier `7`. -/
theorem pth_attr_set_unknown_field_witness :
    ∃ w1, pth_attr_set spawn_world 100 (pth_attr_field.other 7) 1 (some "name")
        = Except.ok (-1, w1) ∧ w1 = spawn_world ∧ w1.attr 100 = spawn_world.attr 100 :=
  pth_attr_set_unknown_field spawn_world 100 (pth_attr_field.other 7) 1 (some "name")
    (by decide) (by decide) (by decide)

/-- Claim C15 fails on the code.  The wrapper runs the entry function of the
thread spawned in `spawned_world` (an entry function that makes no call).  Its
operations on the critical section are `EnterCriticalSection`, the call of the
entry function, `LeaveCriticalSection`: the lock is acquired before the entry
function runs and released after it returns, not the other way round. -/
theorem helper_thread_holds_gate :
    spawned_world.priv 5 = some { thread := 1, arg := 2 } ∧
    ∃ w1, helper_thread (fun _ _ v => v) spawned_world 5 = Except.ok w1 ∧
      gate_ops w1.trace
        = [Call.EnterCriticalSection, Call.thread 1 2, Call.LeaveCriticalSection] ∧
      gate_ops w1.trace
        ≠ [Call.LeaveCriticalSection, Call.thread 1 2, Call.EnterCriticalSection] :=
  ⟨rfl, _, rfl, rfl, by decide⟩

/-- Claim C15, as amended.  On a live thread context `c`, the wrapper calls
`EnterCriticalSection` (through `leave_pth`), then the entry function
`c->thread (c->arg)`, then `LeaveCriticalSection` (through `enter_pth`), then
frees the context and exits: when `t` is what the entry function appends to
the trace, the calls of the wrapper are these, in this order, so the lock is
held while the entry function runs. -/
theorem helper_thread_gate_order (run : Nat → Ptr → World → World) (w : World) (ctx : Ptr)
    (c : _pth_priv_hd_s) (t : List Call) (hc : w.priv ctx = some c)
    (hrun : (run c.thread c.arg ((leave_pth w).log (Call.thread c.thread c.arg))).trace
      = ((leave_pth w).log (Call.thread c.thread c.arg)).trace ++ t) :
    ∃ w1, helper_thread run w ctx = Except.ok w1 ∧
      w1.trace = w.trace ++ ([Call.EnterCriticalSection, Call.thread c.thread c.arg] ++ t
        ++ [Call.LeaveCriticalSection, Call.free ctx, Call.ExitThread 0]) := by
  have hc1 : (leave_pth w).priv ctx = some c := hc
  refine ⟨((enter_pth (run c.thread c.arg ((leave_pth w).log
    (Call.thread c.thread c.arg)))).freePriv ctx).log (Call.ExitThread 0),
    by simp only [helper_thread, hc1], ?_⟩
  show ((run c.thread c.arg ((leave_pth w).log (Call.thread c.thread c.arg))).trace
    ++ [Call.LeaveCriticalSection]) ++ [Call.free ctx] ++ [Call.ExitThread 0] = _
  rw [hrun]
  show (((w.trace ++ [Call.EnterCriticalSection]) ++ [Call.thread c.thread c.arg]) ++ t
    ++ [Call.LeaveCriticalSection]) ++ [Call.free ctx] ++ [Call.ExitThread 0] = _
  simp only [List.append_assoc, List.cons_append, List.nil_append]

/-- The theorem `helper_thread_gate_order` at the thread of `spawned_world`,
with an entry function that sets the event object `7`. -/
theorem helper_thread_gate_order_witness :
    ∃ w1, helper_thread (fun _ _ v => SetEvent v 7) spawned_world 5 = Except.ok w1 ∧
      w1.trace = spawned_world.trace ++ ([Call.EnterCriticalSection, Call.thread 1 2]
        ++ [Call.SetEvent 7]
        ++ [Call.LeaveCriticalSection, Call.free 5, Call.ExitThread 0]) :=
  helper_thread_gate_order (fun _ _ v => SetEvent v 7) spawned_world 5 { thread := 1, arg := 2 }
    [Call.SetEvent 7] rfl rfl

/-! ## The handles `do_pth_wait` closes -/

/-- A `CreateThread` among the calls made for the nodes belongs to a node of
the list whose tag asks for a helper thread. -/
theorem node_calls_mem (a : pth_attr_s) (w : World) (ss : Int) (f : thread_func) (p : Ptr)
    (r : HANDLE) : ∀ (l : List Ptr) (hs : List HANDLE),
    Call.CreateThread ss f p r ∈ (List.zipWith (node_calls a w) l hs).flatten →
    spawns_thread (w.kind p) = true
  | [], _, h => by simp at h
  | _ :: _, [], h => by simp at h
  | q :: l, x :: hs, h => by
    simp only [List.zipWith_cons_cons, List.flatten_cons, List.mem_append] at h
    rcases h with h | h
    · unfold node_calls at h
      cases hk : w.kind q <;> rw [hk] at h <;> simp at h
      · obtain ⟨_, _, rfl, _⟩ := h
        simp [spawns_thread, hk]
      · obtain ⟨_, _, rfl, _⟩ := h
        simp [spawns_thread, hk]
    · exact node_calls_mem a w ss f p r l hs h

theorem forall₂_mem_left {α β : Type} (R : α → β → Prop) : ∀ (l : List α) (hs : List β),
    List.Forall₂ R l hs → ∀ p ∈ l, ∃ h, (p, h) ∈ l.zip hs ∧ R p h
  | _, _, List.Forall₂.nil, p, hp => by simp at hp
  | q :: l, x :: hs, List.Forall₂.cons hqx hrest, p, hp => by
    rcases List.mem_cons.1 hp with rfl | hp
    · exact ⟨x, by simp, hqx⟩
    · obtain ⟨h, h1, h2⟩ := forall₂_mem_left R l hs hrest p hp
      exact ⟨h, by simp [h1], h2⟩

theorem batch_handles_mem (w : World) (sel : pth_event_type → Bool) (l : List Ptr)
    (hs : List HANDLE) (p : Ptr) (h : HANDLE) (hmem : (p, h) ∈ l.zip hs)
    (hsel : sel (w.kind p) = true) : h ∈ batch_handles w sel l hs := by
  unfold batch_handles
  rw [List.mem_map]
  exact ⟨(p, h), List.mem_filter.2 ⟨hmem, hsel⟩, rfl⟩

/-- Claim C16.  Under the conditions of `do_pth_wait_capacity`, on the normal
path and on the capacity path alike, the handles `do_pth_wait` passes to
`CloseHandle` are exactly the handles of its batch at the positions of the
DescriptorReadable, Timer and Mutex events among the nodes it reached (the
first `MAXIMUM_WAIT_OBJECTS / 2` of the chain), in order, and none at the
position of a Generic or Signal event.  For every Mutex event reached, the
handle in the batch is the native lock of its mutex, that lock handle is
closed, and no `CreateThread` call was made for the event. -/
theorem do_pth_wait_closes_recorded (w : World) (ev : Ptr) (l : List Ptr) (fuel : Nat)
    (hch : IsChain w ev l) (hfuel : l.length ≤ fuel) (hmx : mutexes_live w l)
    (halloc : 0 < w.replies.headD 0) :
    ∃ (rc : Int) (w1 : World) (t : List Call) (hs : List HANDLE),
      do_pth_wait fuel w ev = Except.ok (rc, w1) ∧ w1.trace = w.trace ++ t ∧
      (rc = -1 ↔ MAXIMUM_WAIT_OBJECTS / 2 < l.length) ∧
      List.Forall₂ (wait_handle w t) (l.take (MAXIMUM_WAIT_OBJECTS / 2)) hs ∧
      closed_handles t = batch_handles w is_recorded (l.take (MAXIMUM_WAIT_OBJECTS / 2)) hs ∧
      spawned_threads t = batch_handles w spawns_thread (l.take (MAXIMUM_WAIT_OBJECTS / 2)) hs ∧
      (∀ p ∈ l.take (MAXIMUM_WAIT_OBJECTS / 2), w.kind p = pth_event_type.PTH_EVENT_MUTEX →
        ∃ h, w.lock_of p = some h ∧ h ∈ closed_handles t ∧
          ∀ ss f r, Call.CreateThread ss f p r ∉ t) := by
  by_cases hne : ev = 0
  · subst hne
    have hl := IsChain.null w l hch
    subst hl
    refine ⟨0, w, [], [], by simp [do_pth_wait], by simp, by simp, ?_, ?_, ?_, ?_⟩
    · simp
    · simp [closed_handles, batch_handles]
    · simp [spawned_threads, batch_handles]
    · intro p hp
      simp at hp
  · obtain ⟨hs, n, rc, w1, hrun, hlen, hfa, htr, hrc, _, _⟩ :=
      do_pth_wait_summary w ev l fuel hch hne hfuel hmx (reply_toNat_ne_zero w halloc)
    obtain ⟨hp1, _, hp3⟩ :=
      node_calls_projections wait_attr w (l.take (MAXIMUM_WAIT_OBJECTS / 2)) hs
    have hgetD := recorded_positions_getD w (l.take (MAXIMUM_WAIT_OBJECTS / 2)) hs [] hlen
    simp only [List.length_nil, List.nil_append] at hgetD
    have hclosed : closed_handles ([Call.calloc w.reply.1.toNat]
        ++ (List.zipWith (node_calls wait_attr w) (l.take (MAXIMUM_WAIT_OBJECTS / 2)) hs).flatten
        ++ (if l.length ≤ MAXIMUM_WAIT_OBJECTS / 2 then [Call.WaitForMultipleObjects hs n] else [])
        ++ (recorded_positions 0 ((l.take (MAXIMUM_WAIT_OBJECTS / 2)).map w.kind)).map
            (fun i => Call.CloseHandle (hs.getD i 0))
        ++ [Call.free w.reply.1.toNat])
        = batch_handles w is_recorded (l.take (MAXIMUM_WAIT_OBJECTS / 2)) hs := by
      simp only [closed_handles_append, hp1, closed_handles_map_close, hgetD]
      split <;> simp [closed_handles]
    have hspawned : spawned_threads ([Call.calloc w.reply.1.toNat]
        ++ (List.zipWith (node_calls wait_attr w) (l.take (MAXIMUM_WAIT_OBJECTS / 2)) hs).flatten
        ++ (if l.length ≤ MAXIMUM_WAIT_OBJECTS / 2 then [Call.WaitForMultipleObjects hs n] else [])
        ++ (recorded_positions 0 ((l.take (MAXIMUM_WAIT_OBJECTS / 2)).map w.kind)).map
            (fun i => Call.CloseHandle (hs.getD i 0))
        ++ [Call.free w.reply.1.toNat])
        = batch_handles w spawns_thread (l.take (MAXIMUM_WAIT_OBJECTS / 2)) hs := by
      simp only [spawned_threads_append, hp3, spawned_threads_map_close]
      split <;> simp [spawned_threads]
    have hfa1 := forall₂_wait_handle_mono w wait_attr _ _ hs hfa (fun _ hc => hc)
    refine ⟨rc, w1, _, hs, hrun, htr, ?_, ?_, hclosed, hspawned, ?_⟩
    · rw [hrc]
      constructor
      · intro h
        by_contra hcap
        rw [if_neg hcap] at h
        split at h <;> omega
      · intro h
        rw [if_pos h]
    · apply forall₂_wait_handle_mono w wait_attr _ _ hs hfa
      intro c hc
      simp only [List.mem_append]
      exact Or.inl (Or.inl (Or.inl (Or.inr hc)))
    · intro p hp hk
      obtain ⟨h, hzip, hwh⟩ := forall₂_mem_left _ _ hs hfa1 p hp
      have hlock : w.lock_of p = some h := by
        simpa [wait_handle, hk] using hwh
      refine ⟨h, hlock, ?_, ?_⟩
      · rw [hclosed]
        exact batch_handles_mem w is_recorded _ hs p h hzip (by simp [is_recorded, hk])
      · intro ss f r hmem
        simp only [List.mem_append, List.mem_singleton, List.mem_map] at hmem
        rcases hmem with (((hmem | hmem) | hmem) | hmem) | hmem
        · cases hmem
        · have := node_calls_mem wait_attr w ss f p r _ hs hmem
          simp [spawns_thread, hk] at this
        · split at hmem <;> simp at hmem
        · obtain ⟨_, _, h0⟩ := hmem
          cases h0
        · cases hmem

/-- The theorem `do_pth_wait_closes_recorded` at `wait_world`, whose fifth
event is a Mutex event on the lock `70`. -/
theorem do_pth_wait_closes_recorded_witness :
    ∃ (rc : Int) (w1 : World) (t : List Call) (hs : List HANDLE),
      do_pth_wait 5 wait_world 1 = Except.ok (rc, w1) ∧ w1.trace = wait_world.trace ++ t ∧
      (rc = -1 ↔ MAXIMUM_WAIT_OBJECTS / 2 < [1, 2, 3, 4, 5].length) ∧
      List.Forall₂ (wait_handle wait_world t)
        (([1, 2, 3, 4, 5] : List Ptr).take (MAXIMUM_WAIT_OBJECTS / 2)) hs ∧
      closed_handles t = batch_handles wait_world is_recorded
        (([1, 2, 3, 4, 5] : List Ptr).take (MAXIMUM_WAIT_OBJECTS / 2)) hs ∧
      spawned_threads t = batch_handles wait_world spawns_thread
        (([1, 2, 3, 4, 5] : List Ptr).take (MAXIMUM_WAIT_OBJECTS / 2)) hs ∧
      (∀ p ∈ ([1, 2, 3, 4, 5] : List Ptr).take (MAXIMUM_WAIT_OBJECTS / 2),
        wait_world.kind p = pth_event_type.PTH_EVENT_MUTEX →
        ∃ h, wait_world.lock_of p = some h ∧ h ∈ closed_handles t ∧
          ∀ ss f r, Call.CreateThread ss f p r ∉ t) :=
  do_pth_wait_closes_recorded wait_world 1 [1, 2, 3, 4, 5] 5 wait_world_chain (by decide)
    wait_world_mutexes (by decide)

end W32Pth
